import Mathlib

/-!
Verification development for the cvtiqu admissions-document pipeline.

The Python sources embedded here are:
  * `llm_processor.py` — `_extract_json_from_text`, `_parse_content_to_json`,
    `_extract_content_from_result`, `_call_llm_async`, `process_documents`;
  * `test_llm.py` — `calculate_student_tags`, `enrich_school_rankings`.

Conventions of the shallow embedding:
  * Python `str` is Lean `String` (lists of characters); `str.lower` is mapped
    characterwise (the case-folding pairs exercised here are ASCII; CJK text is
    case-invariant in both languages).
  * Python floats are modelled exactly: a parsed float is a rational number or
    one of the special values `inf`, `-inf`, `nan`.
  * `json.loads` (a standard-library call) is modelled by an executable JSON
    syntax parser `jLoads` below, covering the default `json.loads` grammar:
    objects, arrays, strings with escapes, numbers, `true/false/null`, and the
    `NaN`, `Infinity` and `-Infinity` extensions, with no trailing data allowed.
  * fallible Python code is modelled with `Option`/`Except`; a raised and
    caught exception is an `Except.error` value consumed by its handler.
-/

namespace Cvtiqu

/-- Whitespace recognised by Python's `str.strip` and the regex class `\s`
(ASCII subset; the texts this pipeline handles use no exotic Unicode spaces). -/
def pySpace (c : Char) : Bool :=
  c = ' ' || c = '\t' || c = '\n' || c = '\r' || c = '\x0b' || c = '\x0c'

/-- Python `str.strip()` on a character list. -/
def pyStripList (cs : List Char) : List Char :=
  ((cs.dropWhile pySpace).reverse.dropWhile pySpace).reverse

/-- Python `str.strip()`. -/
def pyStrip (s : String) : String := ⟨pyStripList s.data⟩

/-- Does `cs` start with `needle`? (Python `str.startswith` on lists.) -/
def charsStartWith : List Char → List Char → Bool
  | [], _ => true
  | _ :: _, [] => false
  | a :: as, b :: bs => a == b && charsStartWith as bs

/-- Does `cs` contain `needle` as a contiguous substring? (Python `in`.) -/
def charsContain (needle : List Char) : List Char → Bool
  | [] => charsStartWith needle []
  | c :: cs => charsStartWith needle (c :: cs) || charsContain needle cs

/-- Python substring test `needle in hay`. -/
def pyIn (needle hay : String) : Bool := charsContain needle.data hay.data

/-- Python `s.startswith(pre)`. -/
def pyStartsWith (pre s : String) : Bool := charsStartWith pre.data s.data

/-- Python `s.endswith(post)`. -/
def pyEndsWith (post s : String) : Bool :=
  charsStartWith post.data.reverse s.data.reverse

/-- Python `str.lower()` (characterwise; ASCII case pairs). -/
def pyLower (s : String) : String := ⟨s.data.map Char.toLower⟩

/-- Python `str.split(sep)` accumulator. -/
def splitOnCharAux (sep : Char) : List Char → List Char → List (List Char)
  | [], acc => [acc.reverse]
  | c :: cs, acc =>
    if c = sep then acc.reverse :: splitOnCharAux sep cs []
    else splitOnCharAux sep cs (c :: acc)

/-- Python `str.split(sep)` for a one-character separator. -/
def splitOnChar (sep : Char) (cs : List Char) : List (List Char) :=
  splitOnCharAux sep cs []

/-- First index at which `pat` occurs in `cs` (Python `str.find`, as `Option`). -/
def findSub (pat : List Char) : List Char → Option ℕ
  | [] => if charsStartWith pat [] then some 0 else none
  | c :: cs =>
    if charsStartWith pat (c :: cs) then some 0
    else (findSub pat cs).map (· + 1)

/-! ### A model of `json.loads` (validity and parsed value) -/
/-- A parsed JSON value.  Numbers keep their validated source text (none of the
claims consumes a parsed number's magnitude). -/
inductive Jv where
  | jnull : Jv
  | jbool : Bool → Jv
  | jnum : String → Jv
  | jstr : String → Jv
  | jarr : List Jv → Jv
  | jobj : List (String × Jv) → Jv
deriving Repr

/-- JSON whitespace skipped by `json.loads` (space, tab, newline, CR). -/
def jwsChar (c : Char) : Bool := c = ' ' || c = '\t' || c = '\n' || c = '\r'

/-- Skip JSON whitespace. -/
def jws (cs : List Char) : List Char := cs.dropWhile jwsChar

/-- Hex digit value. -/
def jHexVal (c : Char) : Option ℕ :=
  if '0' ≤ c ∧ c ≤ '9' then some (c.toNat - '0'.toNat)
  else if 'a' ≤ c ∧ c ≤ 'f' then some (c.toNat - 'a'.toNat + 10)
  else if 'A' ≤ c ∧ c ≤ 'F' then some (c.toNat - 'A'.toNat + 10)
  else none

/-- Parse the remainder of a JSON string literal (after the opening quote):
returns the decoded characters and the input after the closing quote.  Strict
mode: raw control characters are rejected; the escapes are the JSON ones.
(`\uXXXX` surrogate pairing is not recombined; no claim depends on it.) -/
def jStringTail : ℕ → List Char → Option (List Char × List Char)
  | 0, _ => none
  | _ + 1, [] => none
  | f + 1, c :: cs =>
    if c = '"' then some ([], cs)
    else if c = '\\' then
      match cs with
      | [] => none
      | e :: cs2 =>
        let dec? : Option (Char × List Char) :=
          if e = '"' then some ('"', cs2)
          else if e = '\\' then some ('\\', cs2)
          else if e = '/' then some ('/', cs2)
          else if e = 'b' then some ('\x08', cs2)
          else if e = 'f' then some ('\x0c', cs2)
          else if e = 'n' then some ('\n', cs2)
          else if e = 'r' then some ('\r', cs2)
          else if e = 't' then some ('\t', cs2)
          else if e = 'u' then
            match cs2 with
            | h1 :: h2 :: h3 :: h4 :: cs3 =>
              match jHexVal h1, jHexVal h2, jHexVal h3, jHexVal h4 with
              | some a, some b, some c3, some d =>
                some (Char.ofNat (((a * 16 + b) * 16 + c3) * 16 + d), cs3)
              | _, _, _, _ => none
            | _ => none
          else none
        match dec? with
        | none => none
        | some (ch, rest) =>
          match jStringTail f rest with
          | some (out, rest2) => some (ch :: out, rest2)
          | none => none
    else if c.toNat < 32 then none
    else
      match jStringTail f cs with
      | some (out, rest2) => some (c :: out, rest2)
      | none => none

/-- Take a maximal run of decimal digits. -/
def jDigits : List Char → (List Char × List Char)
  | [] => ([], [])
  | c :: cs =>
    if c.isDigit then
      let (d, r) := jDigits cs
      (c :: d, r)
    else ([], c :: cs)

/-- Match the JSON number grammar `(-?(?:0|[1-9]\d*))(\.\d+)?([eE][-+]?\d+)?`
at the head of the input; returns the matched text and the rest. -/
def jNumber (cs : List Char) : Option (List Char × List Char) :=
  let (sign, cs1) :=
    match cs with
    | '-' :: r => (['-'], r)
    | r => (([] : List Char), r)
  match cs1 with
  | [] => none
  | c :: cs2 =>
    if ¬ c.isDigit then none
    else
      let (intPart, r1) :=
        if c = '0' then ([c], cs2)
        else
          let (d, r) := jDigits cs2
          (c :: d, r)
      let (fracPart, r2) :=
        match r1 with
        | '.' :: r =>
          let (d, r') := jDigits r
          if d = [] then (([] : List Char), r1) else ('.' :: d, r')
        | _ => ([], r1)
      -- a '.' not followed by a digit is not part of the number (the regex
      -- simply stops before it, and the trailing-data check then rejects)
      let (expPart, r3) :=
        match r2 with
        | e :: r =>
          if e = 'e' ∨ e = 'E' then
            match r with
            | s :: r' =>
              if s = '+' ∨ s = '-' then
                let (d, r'') := jDigits r'
                if d = [] then (([] : List Char), r2) else (e :: s :: d, r'')
              else
                let (d, r'') := jDigits r
                if d = [] then (([] : List Char), r2) else (e :: d, r'')
            | [] => ([], r2)
          else ([], r2)
        | [] => ([], r2)
      some (sign ++ intPart ++ fracPart ++ expPart, r3)

mutual

/-- Parse one JSON value at the head of the input. -/
def jValue : ℕ → List Char → Option (Jv × List Char)
  | 0, _ => none
  | _ + 1, [] => none
  | f + 1, c :: cs =>
    if c = '"' then
      match jStringTail (cs.length + 1) cs with
      | some (out, rest) => some (.jstr ⟨out⟩, rest)
      | none => none
    else if c = '{' then
      match jws cs with
      | '}' :: rest => some (.jobj [], rest)
      | cs' =>
        match jMembers f cs' with
        | some (kvs, rest) => some (.jobj kvs, rest)
        | none => none
    else if c = '[' then
      match jws cs with
      | ']' :: rest => some (.jarr [], rest)
      | cs' =>
        match jElems f cs' with
        | some (xs, rest) => some (.jarr xs, rest)
        | none => none
    else if charsStartWith ['t', 'r', 'u', 'e'] (c :: cs) then
      some (.jbool true, cs.drop 3)
    else if charsStartWith ['f', 'a', 'l', 's', 'e'] (c :: cs) then
      some (.jbool false, cs.drop 4)
    else if charsStartWith ['n', 'u', 'l', 'l'] (c :: cs) then
      some (.jnull, cs.drop 3)
    else if charsStartWith ['N', 'a', 'N'] (c :: cs) then
      some (.jnum "NaN", cs.drop 2)
    else if charsStartWith ['I', 'n', 'f', 'i', 'n', 'i', 't', 'y'] (c :: cs) then
      some (.jnum "Infinity", cs.drop 7)
    else if charsStartWith ['-', 'I', 'n', 'f', 'i', 'n', 'i', 't', 'y'] (c :: cs) then
      some (.jnum "-Infinity", cs.drop 8)
    else
      match jNumber (c :: cs) with
      | some (txt, rest) => some (.jnum ⟨txt⟩, rest)
      | none => none

/-- Parse a nonempty comma-separated member list of a JSON object, including
the closing brace. -/
def jMembers : ℕ → List Char → Option (List (String × Jv) × List Char)
  | 0, _ => none
  | _ + 1, [] => none
  | f + 1, c :: cs =>
    if c = '"' then
      match jStringTail (cs.length + 1) cs with
      | none => none
      | some (key, r1) =>
        match jws r1 with
        | ':' :: r2 =>
          match jValue f (jws r2) with
          | none => none
          | some (v, r3) =>
            match jws r3 with
            | ',' :: r4 =>
              match jMembers f (jws r4) with
              | some (kvs, rest) => some ((⟨key⟩, v) :: kvs, rest)
              | none => none
            | '}' :: rest => some ([(⟨key⟩, v)], rest)
            | _ => none
        | _ => none
    else none

/-- Parse a nonempty comma-separated element list of a JSON array, including
the closing bracket. -/
def jElems : ℕ → List Char → Option (List Jv × List Char)
  | 0, _ => none
  | f + 1, cs =>
    match jValue f cs with
    | none => none
    | some (v, r1) =>
      match jws r1 with
      | ',' :: r2 =>
        match jElems f (jws r2) with
        | some (xs, rest) => some (v :: xs, rest)
        | none => none
      | ']' :: rest => some ([v], rest)
      | _ => none

end

/-- Model of `json.loads`: parse the whole text (surrounding JSON whitespace
allowed, trailing data rejected). -/
def jLoads (s : String) : Option Jv :=
  match jValue (2 * s.data.length + 4) (jws s.data) with
  | some (v, r) => if jws r = [] then some v else none
  | none => none

/-- Does `json.loads` succeed on this text? -/
def json_loads_ok (s : String) : Bool := (jLoads s).isSome

/-! ### `_extract_json_from_text` (llm_processor.py, lines 421-501)

Method 1 uses `re.findall` with the DOTALL pattern
` ```(?:json)?\s*\n(.*?)\n``` `.  The backtracking behaviour of that pattern is
deterministic: after the literal fence and optional `json` tag, the greedy
`\s*\n` binds to the *last* newline of the maximal whitespace run (falling back
to earlier newlines of the run when the rest of the pattern cannot complete),
and the lazy `(.*?)\n\x60\x60\x60` then ends the capture at the first
` \n``` ` occurrence after that newline. -/
/-- Indices of `'\n'` inside a whitespace run, largest first — the order in
which the backtracking engine tries bindings of `\s*\n`. -/
def nlPositionsDesc (ws : List Char) : List ℕ :=
  ((List.range ws.length).filter (fun k => ws[k]? = some '\n')).reverse

/-- Try each candidate newline position `k` (largest first): the capture runs
from `k+1` to the first following ` \n``` `.  Returns the capture and the rest
of the input after the whole match. -/
def fenceTailTry (r4 : List Char) : List ℕ → Option (List Char × List Char)
  | [] => none
  | k :: ks =>
    match findSub ['\n', '`', '`', '`'] (r4.drop (k + 1)) with
    | some off =>
      some ((r4.drop (k + 1)).take off, r4.drop (k + 1 + off + 4))
    | none => fenceTailTry r4 ks

/-- Match the fenced-code-block pattern at the head of `cs`; on success return
the capture group and the input after the match. -/
def fenceAtHead (cs : List Char) : Option (List Char × List Char) :=
  if charsStartWith ['`', '`', '`'] cs then
    let r3 := cs.drop 3
    let r4 := if charsStartWith ['j', 's', 'o', 'n'] r3 then r3.drop 4 else r3
    let wsRun := r4.takeWhile pySpace
    fenceTailTry r4 (nlPositionsDesc wsRun)
  else none

/-- Leftmost, non-overlapping scan (the semantics of `re.findall`).  Every
match consumes at least eight characters, so fuel `length + 1` never runs
out before the scan finishes. -/
def fenceScan : ℕ → List Char → List (List Char)
  | 0, _ => []
  | _ + 1, [] => []
  | f + 1, c :: cs =>
    match fenceAtHead (c :: cs) with
    | some (cap, rest) => cap :: fenceScan f rest
    | none => fenceScan f cs

/-- Model of `re.findall` for the fenced-code-block pattern: the capture groups. -/
def json_code_block_findall (text : String) : List (List Char) :=
  fenceScan (text.data.length + 1) text.data

/-- Innermost alternative `\{[^{}]*\}` of the brace pattern: on success return
the input after the match. -/
def braceC : List Char → Option (List Char)
  | '{' :: cs =>
    match cs.dropWhile (fun c => !(c == '{' || c == '}')) with
    | '}' :: r => some r
    | _ => none
  | _ => none

/-- The loop `(?:[^{}]|SUB)*\}` after an opening brace: consume non-brace
characters, recurse into `SUB` at `'{'`, succeed at `'}'`.  (For this pattern
the regex engine's backtracking never changes the outcome, so the match is
this deterministic scan.) -/
def braceStarLoop (sub : List Char → Option (List Char)) : ℕ → List Char → Option (List Char)
  | 0, _ => none
  | _ + 1, [] => none
  | f + 1, c :: cs =>
    if c = '}' then some cs
    else if c = '{' then
      match sub (c :: cs) with
      | some r => braceStarLoop sub f r
      | none => none
    else braceStarLoop sub f cs

/-- Middle alternative `\{(?:[^{}]|\{[^{}]*\})*\}`. -/
def braceB (fuel : ℕ) : List Char → Option (List Char)
  | '{' :: cs => braceStarLoop braceC fuel cs
  | _ => none

/-- The whole brace pattern `(\{(?:[^{}]|(?:\{(?:[^{}]|(?:\{[^{}]*\}))*\}))*\})`. -/
def braceWhole (fuel : ℕ) : List Char → Option (List Char)
  | '{' :: cs => braceStarLoop (braceB fuel) fuel cs
  | _ => none

/-- Model of `re.findall` for the brace pattern: leftmost, non-overlapping matches. -/
def braceScan : ℕ → List Char → List (List Char)
  | 0, _ => []
  | _ + 1, [] => []
  | f + 1, c :: cs =>
    if c = '{' then
      match braceWhole (cs.length + 1) (c :: cs) with
      | some rest =>
        ((c :: cs).take ((c :: cs).length - rest.length)) :: braceScan f rest
      | none => braceScan f cs
    else braceScan f cs

/-- All balanced-brace candidates found in the text. -/
def json_pattern_findall (text : String) : List (List Char) :=
  braceScan (text.data.length + 1) text.data

/-- Stable insertion of one candidate into a length-descending list (a new
element goes after every element of greater or equal length). -/
def insertByLenDesc (x : List Char) : List (List Char) → List (List Char)
  | [] => [x]
  | y :: ys => if x.length ≤ y.length then y :: insertByLenDesc x ys else x :: y :: ys

/-- Python's stable `candidates.sort(key=len, reverse=True)`. -/
def sortByLenDesc (l : List (List Char)) : List (List Char) :=
  l.foldl (fun acc x => insertByLenDesc x acc) []

/-- First index of character `c` (Python `str.find`, as `Option`). -/
def pyFindChar (c : Char) (cs : List Char) : Option ℕ := findSub [c] cs

/-- Last index of character `c` (Python `str.rfind`, as `Option`). -/
def pyRfindChar (c : Char) (cs : List Char) : Option ℕ :=
  (pyFindChar c cs.reverse).map (fun i => cs.length - 1 - i)

/-- Method 3: slice from the first `'{'` to the last `'}'` and try a strict
parse; on failure fall through. -/
def method3 (cs : List Char) : Option String :=
  match pyFindChar '{' cs, pyRfindChar '}' cs with
  | some s, some e =>
    if s < e then
      let jt : String := ⟨(cs.drop s).take (e + 1 - s)⟩
      if json_loads_ok jt then some jt else none
    else none
  | _, _ => none

/-- Method 4: iterate stripped lines; once a line starting with `'{'` is seen,
accumulate lines, and after each accumulated line ending with `'}'` try a
strict parse of the newline-joined block. -/
def scan_lines : List (List Char) → Bool → List (List Char) → Option String
  | [], _, _ => none
  | l :: rest, started, acc =>
    let ls := pyStripList l
    if !started then
      if charsStartWith ['{'] ls then scan_lines rest true (acc ++ [ls])
      else scan_lines rest false acc
    else
      let acc2 := acc ++ [ls]
      if charsStartWith ['}'] ls.reverse then
        let jt : String := String.intercalate "\n" (acc2.map (fun x => (⟨x⟩ : String)))
        if json_loads_ok jt then some jt else scan_lines rest true acc2
      else scan_lines rest true acc2

/-- Model of `LLMProcessor._extract_json_from_text` (llm_processor.py, lines 421-501):
the four extraction strategies in order, with the empty-object fallback.
Every Python parse attempt is inside `try/except`, so the function is total;
the embedding is accordingly a total function. -/
def extract_json_from_text (otext : Option String) : String :=
  match otext with
  | none => "\x7b\x7d"
  | some text =>
    match (json_code_block_findall text).reverse.find?
        (fun m => json_loads_ok (pyStrip ⟨m⟩)) with
    | some m => pyStrip ⟨m⟩
    | none =>
      match (sortByLenDesc (json_pattern_findall text)).find?
          (fun m => json_loads_ok ⟨m⟩) with
      | some m => (⟨m⟩ : String)
      | none =>
        match method3 text.data with
        | some s => s
        | none =>
          match scan_lines (splitOnChar '\n' text.data) false [] with
          | some s => s
          | none => "\x7b\x7d"

/-- The text contains no brace character. -/
def braceFree (cs : List Char) : Bool := cs.all (fun c => !(c == '{' || c == '}'))

/-- An input exercising Claim C1: two fenced blocks, the later one
unparseable, so the backward scan returns the earlier (last parseable) one. -/
def c1Text : String := "ok\n```json\n\x7b\"a\": 1\x7d\n```\nmid\n```\nnope\n```\nend"

/-! ### The student record model (test_llm.py)

`calculate_student_tags` and `enrich_school_rankings` consume JSON-decoded
dictionaries.  Fields that the code reads only through `str(...)` conversion
or `== "literal"` comparison are modelled as `Option String` (every Python
value is observationally a string there); fields consumed through truthiness,
`isinstance(v, (int, float, str))` and `float(...)` keep their JSON scalar
shape.  JSON containers in a scalar position behave like `null` (they fail the
`isinstance` guard), so the scalar type below omits them.  Unknown dictionary
keys are carried in `extra` fields that none of the code reads. -/
/-- A JSON scalar field value. -/
inductive JVal where
  | jvNull : JVal
  | jvBool : Bool → JVal
  | jvNum : ℚ → JVal
  | jvStr : String → JVal
deriving DecidableEq, Repr

/-- A Python float value: finite floats are modelled exactly as rationals
(decimal literals are exact in this model; the claims' thresholds are not at
representation boundaries), plus the special values. -/
inductive PyFloat where
  | fin : ℚ → PyFloat
  | pinf : PyFloat
  | ninf : PyFloat
  | pnan : PyFloat
deriving DecidableEq, Repr

/-- Comparison `x < t` of a Python float against a finite threshold (`nan` and `inf`
compare false, `-inf` compares true).  Comparison is by the core `Rat.blt`,
which the kernel evaluates. -/
def PyFloat.ltQ : PyFloat → ℚ → Bool
  | .fin q, t => Rat.blt q t
  | .pinf, _ => false
  | .ninf, _ => true
  | .pnan, _ => false

/-- Decimal digits to a natural number. -/
def digitsToNat (ds : List Char) : ℕ :=
  ds.foldl (fun n c => 10 * n + (c.toNat - '0'.toNat)) 0

/-- The exact rational `±(ipfp / 10^flen) · 10^(±ex)` of a float literal,
assembled with core `mkRat` so that kernel evaluation works. -/
def pyRatOfParts (neg : Bool) (num den : ℕ) (ex : ℕ) (eneg : Bool) : ℚ :=
  let n : ℕ := if eneg then num else num * 10 ^ ex
  let d : ℕ := if eneg then den * 10 ^ ex else den
  let q := mkRat (Int.ofNat n) d
  if neg then Rat.neg q else q

/-- The optional exponent of a Python float literal, requiring the input to be
exhausted afterwards. -/
def pyFloatExpTail (neg : Bool) (ip fp : List Char) (rest : List Char) : Option PyFloat :=
  let mantNum : ℕ := digitsToNat ip * 10 ^ fp.length + digitsToNat fp
  let mantDen : ℕ := 10 ^ fp.length
  match rest with
  | [] => some (.fin (pyRatOfParts neg mantNum mantDen 0 false))
  | e :: r =>
    if e = 'e' ∨ e = 'E' then
      let (eneg, r1) : Bool × List Char :=
        match r with
        | '+' :: rr => (false, rr)
        | '-' :: rr => (true, rr)
        | rr => (false, rr)
      let (eds, r2) := jDigits r1
      if eds = [] ∨ r2 ≠ [] then none
      else some (.fin (pyRatOfParts neg mantNum mantDen (digitsToNat eds) eneg))
    else none

/-- Python `float(str)`: surrounding whitespace, optional sign, then
`inf`,`infinity`,`nan` (case-insensitive) or `digits [. digits] [exp]` with at
least one mantissa digit.  (PEP 515 underscore separators are not modelled;
string-to-float overflow to `inf` is modelled by the exact value, which
compares identically against the finite thresholds used here.) -/
def pyFloatParse (s : String) : Option PyFloat :=
  let cs := pyStripList s.data
  let (neg, cs1) : Bool × List Char :=
    match cs with
    | '+' :: r => (false, r)
    | '-' :: r => (true, r)
    | r => (false, r)
  let low := cs1.map Char.toLower
  if low = "inf".data ∨ low = "infinity".data then
    some (if neg then .ninf else .pinf)
  else if low = "nan".data then some .pnan
  else
    let (ip, r1) := jDigits cs1
    match r1 with
    | '.' :: r2 =>
      let (fp, r3) := jDigits r2
      if ip = [] ∧ fp = [] then none
      else pyFloatExpTail neg ip fp r3
    | _ =>
      if ip = [] then none else pyFloatExpTail neg ip [] r1

/-- Python truthiness of a JSON scalar. -/
def jvTruthy : JVal → Bool
  | .jvNull => false
  | .jvBool b => b
  | .jvNum q => q ≠ 0
  | .jvStr s => s ≠ ""

/-- Truthiness of an optional field (`None`, i.e. an absent key, is falsy). -/
def optTruthy : Option JVal → Bool
  | none => false
  | some v => jvTruthy v

/-- Truthiness of an optional string field. -/
def strTruthy : Option String → Bool
  | none => false
  | some s => s ≠ ""

/-- Python `isinstance(v, (int, float, str))` — `bool` is a subclass of `int`. -/
def jvIsNumOrStr : JVal → Bool
  | .jvNull => false
  | .jvBool _ => true
  | .jvNum _ => true
  | .jvStr _ => true

/-- Python `float(v)` for a scalar (`None` raises, the `True`,`False` values
convert to `1.0`,`0.0`, strings are parsed). -/
def pyFloatOf : JVal → Option PyFloat
  | .jvNull => none
  | .jvBool b => some (.fin (if b then 1 else 0))
  | .jvNum q => some (.fin q)
  | .jvStr s => pyFloatParse s

/-- Python `v == True` (note `1 == True` holds). -/
def jvEqTrue : Option JVal → Bool
  | some (.jvBool b) => b
  | some (.jvNum q) => q = 1
  | _ => false

/-- One entry of `testScores`.  `testName` is consumed via `.lower()`, so it
must be a string; an absent key defaults to `""`. -/
structure TestScore where
  testName : Option String
  testScore : Option JVal
deriving DecidableEq, Repr

/-- One admission record inside an offer analysis. -/
structure Admission where
  school : Option String
  program : Option String
  country : Option String
  majorCategory : Option String
  degreeType : Option String
  rankingType : Option String
  rankingValue : Option JVal
  rankingTier : Option String
  enrollmentSeason : Option String
  hasScholarship : Option JVal
  scholarshipAmount : Option JVal
  scholarshipNote : Option JVal
  extra : List (String × JVal)
deriving DecidableEq, Repr

/-- One offer analysis. -/
structure OfferAnalysis where
  admissions : List Admission
  extra : List (String × JVal)
deriving DecidableEq, Repr

/-- The `education` part of a resume analysis. -/
structure Education where
  gpaValue : Option JVal
  extra : List (String × JVal)
deriving DecidableEq, Repr

/-- A resume analysis. -/
structure ResumeAnalysis where
  education : Education
  testScores : List TestScore
  extra : List (String × JVal)
deriving DecidableEq, Repr

/-- The combined student record as assembled by the orchestrator. -/
structure StudentData where
  resume_analysis : ResumeAnalysis
  offer_analyses : List OfferAnalysis
  tags : Option String
  extra : List (String × JVal)
deriving DecidableEq, Repr

/-- All admissions across all offer analyses, in order. -/
def allAdmissions (d : StudentData) : List Admission :=
  (d.offer_analyses.map (fun o => o.admissions)).flatten

/-! ### `calculate_student_tags` (test_llm.py, lines 11-159) -/
/-- Scholarship rule: `hasScholarship == True` or truthy `scholarshipAmount`
for some admission (the loop with `break` is `any`). -/
def hasScholarshipTag (admissions : List Admission) : Bool :=
  admissions.any (fun adm => jvEqTrue adm.hasScholarship || optTruthy adm.scholarshipAmount)

/-- GPA part of the low-score check: truthy, `isinstance`-typed, converts by
`float(...)` and compares `< 3.2`. -/
def gpaLow (gpa : Option JVal) : Bool :=
  match gpa with
  | none => false
  | some v =>
    jvTruthy v && jvIsNumOrStr v &&
      (match pyFloatOf v with
       | some x => x.ltQ (mkRat 16 5)
       | none => false)

/-- Test-score coercion: `str(test_score)`, then if it contains a colon the
part after the last colon is taken and stripped, then `float(...)`.  A boolean
score round-trips through `str` to `"True"`,`"False"`, which `float` rejects;
a numeric score round-trips to its own value. -/
def scoreCoerce : JVal → Option PyFloat
  | .jvNull => none
  | .jvBool _ => none
  | .jvNum q => some (.fin q)
  | .jvStr s =>
    let t : String :=
      if pyIn ":" s then pyStrip ⟨(splitOnChar ':' s.data).getLastD []⟩ else s
    pyFloatParse t

/-- Language-test part of the low-score check, with the source's `if`,`elif`
ordering (TOEFL clause first, IELTS clause otherwise). -/
def testLow (t : TestScore) : Bool :=
  let name := pyLower (t.testName.getD "")
  match t.testScore with
  | none => false
  | some v =>
    jvTruthy v && jvIsNumOrStr v &&
      (match scoreCoerce v with
       | some x =>
         if (pyIn "托福" name || pyIn "toefl" name) && x.ltQ 90 then true
         else if (pyIn "雅思" name || pyIn "ielts" name) && x.ltQ (mkRat 13 2) then true
         else false
       | none => false)

/-- The `low_score` flag: set by the GPA check or by any test score. -/
def lowScore (d : StudentData) : Bool :=
  gpaLow d.resume_analysis.education.gpaValue ||
    d.resume_analysis.testScores.any testLow

/-- One admission's contribution to the `good_ranking` flag. -/
def admGoodRanking (adm : Admission) : Bool :=
  match adm.rankingValue with
  | none => false
  | some v =>
    jvTruthy v && jvIsNumOrStr v &&
      (match pyFloatOf v with
       | some x => x.ltQ 100
       | none => false)

/-- The `good_ranking` flag (loop with `break`). -/
def goodRanking (admissions : List Admission) : Bool :=
  admissions.any admGoodRanking

/-- The fixed K-12 keyword list of the source. -/
def k12_keywords : List String :=
  ["K12", "k12", "High School", "high school", "Middle School",
   "middle school", "小学", "中学", "高中", "Elementary", "Secondary",
   "Preparatory", "Prep", "Academy", "Day School", "Grammar School",
   "Primary", "Junior"]

/-- Python `str(adm.get("school", "")).lower()`. -/
def admSchoolL (adm : Admission) : String := pyLower (adm.school.getD "")

/-- Python `str(adm.get("program", "")).lower()`. -/
def admProgramL (adm : Admission) : String := pyLower (adm.program.getD "")

/-- K-12 rule 1: a keyword occurs in the lowered school or program name. -/
def k12Rule1 (adm : Admission) : Bool :=
  k12_keywords.any (fun kw =>
    pyIn (pyLower kw) (admSchoolL adm) || pyIn (pyLower kw) (admProgramL adm))

/-- K-12 rule 2: the `"the … school"` shape without `university`,`college`. -/
def k12Rule2 (adm : Admission) : Bool :=
  pyStartsWith "the " (admSchoolL adm) && pyEndsWith " school" (admSchoolL adm) &&
    !(pyIn "university" (admSchoolL adm)) && !(pyIn "college" (admSchoolL adm))

/-- K-12 rule 3: `degreeType == "OTHER"`, `rankingValue` **or** `rankingType`
falsy, and the program is a no-major marker or contains `general`. -/
def k12Rule3 (adm : Admission) : Bool :=
  (adm.degreeType == some "OTHER") &&
    (!(optTruthy adm.rankingValue) || !(strTruthy adm.rankingType)) &&
    (admProgramL adm == "专业未定" || admProgramL adm == "无专业" ||
      pyIn "general" (pyLower (admProgramL adm)))

/-- Per-admission K-12 check: gated on `degreeType == "OTHER"`, rules tried in
order with short-circuit on the first match. -/
def admissionK12 (adm : Admission) : Bool :=
  (adm.degreeType == some "OTHER") &&
    (k12Rule1 adm ||
      (!(k12Rule1 adm) && (k12Rule2 adm || (!(k12Rule2 adm) && k12Rule3 adm))))

/-- The young-study-abroad tag fires on the first matching admission. -/
def k12Tag (admissions : List Admission) : Bool :=
  admissions.any admissionK12

/-- The event "the tag check of this admission is decided by rule 3": the
`degreeType` gate passed, rules 1 and 2 failed, rule 3 matched. -/
def triggersViaRule3 (adm : Admission) : Bool :=
  (adm.degreeType == some "OTHER") && !(k12Rule1 adm) && !(k12Rule2 adm) && k12Rule3 adm

/-- The `tags` list assembled by `calculate_student_tags`, in source order. -/
def student_tags_list (d : StudentData) : List String :=
  (if hasScholarshipTag (allAdmissions d) then ["奖学金"] else []) ++
    (if lowScore d && goodRanking (allAdmissions d) then ["低分逆袭"] else []) ++
      (if k12Tag (allAdmissions d) then ["低龄留学"] else [])

/-- Model of `calculate_student_tags` (test_llm.py, lines 11-159): the `+`-joined tag
string, or `None` when no tag applies. -/
def calculate_student_tags (d : StudentData) : Option String :=
  if (student_tags_list d).isEmpty then none
  else some (String.intercalate "+" (student_tags_list d))

/-! ### Claim-side predicates for C3 (the claim's wording, without the
source's truthiness and `isinstance` gates) -/
/-- Claim C3's clause (a), GPA part: "GPA coerced to float is < 3.2". -/
def claimGpaLow (gpa : Option JVal) : Bool :=
  match gpa with
  | none => false
  | some v =>
    match pyFloatOf v with
    | some x => x.ltQ (mkRat 16 5)
    | none => false

/-- Claim C3's clause (a), test part, as a plain disjunction. -/
def claimTestLow (t : TestScore) : Bool :=
  let name := pyLower (t.testName.getD "")
  match t.testScore with
  | none => false
  | some v =>
    match scoreCoerce v with
    | some x =>
      ((pyIn "托福" name || pyIn "toefl" name) && x.ltQ 90) ||
        ((pyIn "雅思" name || pyIn "ielts" name) && x.ltQ (mkRat 13 2))
    | none => false

/-- Claim C3's clause (a): a low-score signal exists. -/
def claimLowSignal (d : StudentData) : Bool :=
  claimGpaLow d.resume_analysis.education.gpaValue ||
    d.resume_analysis.testScores.any claimTestLow

/-- Claim C3's clause (b): some admission's `rankingValue` coerces below 100. -/
def claimGoodRanking (admissions : List Admission) : Bool :=
  admissions.any (fun adm =>
    match adm.rankingValue with
    | some v =>
      match pyFloatOf v with
      | some x => x.ltQ 100
      | none => false
    | none => false)

/-- An admission record with every field absent. -/
def emptyAdmission : Admission :=
  ⟨none, none, none, none, none, none, none, none, none, none, none, none, []⟩

/-- A student record with no data at all. -/
def emptyStudent : StudentData :=
  ⟨⟨⟨none, []⟩, [], []⟩, [], none, []⟩

/-! ### Claim C3 -/
/-- Amended clause (a) of Claim C3: a low-score signal, additionally requiring
each consulted value to be truthy and of an `int`,`float`,`str` type (the
source skips falsy values such as `0`, `""`, `None`, `False` before coercing). -/
def amendedLowSignal (d : StudentData) : Prop :=
  (∃ v, d.resume_analysis.education.gpaValue = some v ∧ jvTruthy v = true ∧
      jvIsNumOrStr v = true ∧
      ∃ x, pyFloatOf v = some x ∧ x.ltQ (mkRat 16 5) = true) ∨
    (∃ t ∈ d.resume_analysis.testScores, ∃ v, t.testScore = some v ∧
      jvTruthy v = true ∧ jvIsNumOrStr v = true ∧
      ∃ x, scoreCoerce v = some x ∧
        (((pyIn "托福" (pyLower (t.testName.getD "")) ||
              pyIn "toefl" (pyLower (t.testName.getD ""))) &&
            x.ltQ 90) = true ∨
          ((pyIn "雅思" (pyLower (t.testName.getD "")) ||
              pyIn "ielts" (pyLower (t.testName.getD ""))) &&
            x.ltQ (mkRat 13 2)) = true))

/-- Amended clause (b) of Claim C3: some admission has a truthy, typed
`rankingValue` coercing below 100. -/
def amendedGoodRanking (d : StudentData) : Prop :=
  ∃ adm ∈ allAdmissions d, ∃ v, adm.rankingValue = some v ∧ jvTruthy v = true ∧
    jvIsNumOrStr v = true ∧ ∃ x, pyFloatOf v = some x ∧ x.ltQ 100 = true

/-- The record of Claim C3's concrete instance: GPA `3.0`, a TOEFL score
`"总分: 85"`, one admission with `rankingValue = "45"`. -/
def c3Instance : StudentData :=
  { emptyStudent with
    resume_analysis :=
      ⟨⟨some (.jvNum 3), []⟩, [⟨some "TOEFL", some (.jvStr "总分: 85")⟩], []⟩,
    offer_analyses := [⟨[{ emptyAdmission with rankingValue := some (.jvStr "45") }], []⟩] }

/-- A record refuting Claim C3 as stated: `gpaValue` is the number `0`. -/
def c3Counter : StudentData :=
  { emptyStudent with
    resume_analysis := ⟨⟨some (.jvNum 0), []⟩, [], []⟩,
    offer_analyses := [⟨[{ emptyAdmission with rankingValue := some (.jvStr "45") }], []⟩] }

/-! ### Claim C4 -/
/-- The admission refuting Claim C4 as stated: `degreeType` is `OTHER`, the
program contains `general`, `rankingValue` is absent but `rankingType` is the
present, truthy string `"QS"`. -/
def c4Adm : Admission :=
  { emptyAdmission with
    degreeType := some "OTHER", school := some "x",
    program := some "general", rankingType := some "QS" }

/-- A record holding only `c4Adm`. -/
def c4Record : StudentData :=
  { emptyStudent with offer_analyses := [⟨[c4Adm], []⟩] }

/-! ### `enrich_school_rankings` (test_llm.py, lines 161-220)

Modelled from the spec: the ranking reference tables `qs_school_ranking` and
`usnews_school_ranking` come from the module `qs_usnews_school_dict`, which is
not among the sources; per the spec they are static mappings from numeric
rank to institution name, iterated in ascending-rank order.  The engine is
therefore parameterised over the two tables, as association lists in their
iteration order. -/
/-- A ranking reference table: `(rank, institution name)` entries in
dictionary iteration order (per the spec, ascending rank). -/
abbrev RankingTable := List (ℕ × String)

/-- The fuzzy school-name match: case-insensitive substring containment in
either direction. -/
def matchName (schoolName entryName : String) : Bool :=
  pyIn (pyLower schoolName) (pyLower entryName) ||
    pyIn (pyLower entryName) (pyLower schoolName)

/-- The table scan with `break`: the first matching entry's rank wins. -/
def lookupRank : RankingTable → String → Option ℕ
  | [], _ => none
  | (rank, name) :: rest, schoolName =>
    if matchName schoolName name then some rank else lookupRank rest schoolName

/-- The tier ladder of the source; beyond 100 the previous tier value is kept
(the code simply does not assign). -/
def rankingTierOf (r : ℕ) (old : Option String) : Option String :=
  if r ≤ 5 then some "TOP5"
  else if r ≤ 10 then some "TOP10"
  else if r ≤ 30 then some "TOP30"
  else if r ≤ 50 then some "TOP50"
  else if r ≤ 100 then some "TOP100"
  else old

/-- The update applied after a successful table lookup: `if ranking:` skips a
rank of `0`, otherwise `rankingValue` becomes `str(rank)` and the tier ladder
runs. -/
def enrichWith (table : RankingTable) (adm : Admission) (schoolName : String) : Admission :=
  match lookupRank table schoolName with
  | some r =>
    if r ≠ 0 then
      { adm with rankingValue := some (.jvStr (toString r)),
                 rankingTier := rankingTierOf r adm.rankingTier }
    else adm
  | none => adm

/-- Per-admission enrichment: only admissions with falsy `rankingValue` are
touched; the table is selected by `rankingType`, anything other than `"QS"`
and `"US News"` is skipped. -/
def enrichAdmission (qs usnews : RankingTable) (adm : Admission) : Admission :=
  if optTruthy adm.rankingValue then adm
  else if adm.rankingType.getD "" = "QS" then
    enrichWith qs adm (adm.school.getD "")
  else if adm.rankingType.getD "" = "US News" then
    enrichWith usnews adm (adm.school.getD "")
  else adm

/-- The inner loop over one offer's admissions. -/
def enrichOffer (qs usnews : RankingTable) (offer : OfferAnalysis) : OfferAnalysis :=
  { offer with admissions := offer.admissions.map (enrichAdmission qs usnews) }

/-- Model of `enrich_school_rankings` (test_llm.py, lines 161-220): the in-place
mutation of every admission, modelled functionally.  (The source's guard
`if not analysis_data or not isinstance(analysis_data, dict)` returns non-dict
or empty-dict inputs unchanged; a typed record is always a populated dict.) -/
def enrich_school_rankings (qs usnews : RankingTable) (d : StudentData) : StudentData :=
  { d with offer_analyses := d.offer_analyses.map (enrichOffer qs usnews) }

/-! ### Claims C5, C6, C7, C10 -/
/-- An admission ready for enrichment against a concrete one-entry QS table. -/
def c5AdmU : Admission :=
  { emptyAdmission with school := some "u", rankingType := some "QS" }

/-- An admission ready for enrichment against a concrete one-entry US News
table. -/
def c5AdmUS : Admission :=
  { emptyAdmission with school := some "u", rankingType := some "US News" }

/-- An admission whose `rankingType` selects no table. -/
def c6AdmTimes : Admission :=
  { emptyAdmission with school := some "harvard", rankingType := some "Times" }

/-- An admission whose `rankingValue` is already populated. -/
def c7AdmSet : Admission :=
  { emptyAdmission with
    school := some "harvard",
    rankingType := some "QS",
    rankingValue := some (.jvStr "7") }

/-- A one-offer record for the frame witness. -/
def c10Offer : OfferAnalysis :=
  ⟨[{ emptyAdmission with school := some "harvard", rankingType := some "QS" }],
    [("note", .jvStr "extra")]⟩

/-- A record for the frame witness. -/
def c10Rec : StudentData :=
  { emptyStudent with offer_analyses := [c10Offer], tags := some "奖学金" }

/-! ### `_call_llm_async` and `process_documents` (llm_processor.py, lines
172-201 and 252-320)

The HTTP transport is an excluded collaborator: its outcome for one call is
either a response (status, body) or a raised exception.  Everything inside
the `try` block of `_call_llm_async` is modelled in an `Except` monad written
out as explicit matches; the three `except` clauses form the handler. -/
/-- An exception raised inside the `try` block. -/
inductive PyExn where
  | timeoutExn : PyExn
  | clientExn : PyExn
  | otherExn : String → PyExn
deriving DecidableEq, Repr

/-- The transport outcome of one LLM call. -/
inductive Transport where
  | resp : ℕ → String → Transport
  | raised : PyExn → Transport
deriving DecidableEq, Repr

/-- The value a call contributes to its result slot: a parsed JSON value, or
the error dictionary `{"error": msg, ...}`. -/
inductive CallResult where
  | parsed : Jv → CallResult
  | errorResult : String → CallResult

/-- Does this result carry an error field? -/
def CallResult.isError : CallResult → Bool
  | .errorResult _ => true
  | .parsed _ => false

/-- The message of an error result. -/
def CallResult.errMsg : CallResult → Option String
  | .errorResult m => some m
  | .parsed _ => none

/-- Is this value the Python `None` (JSON `null` decodes to `None`, and a
missing key yields `None`)? -/
def Jv.isNull : Jv → Bool
  | .jnull => true
  | _ => false

/-- Python `key in v`: key membership for dicts, element equality for lists,
substring for strings, `TypeError` otherwise. -/
def jvContainsKey (key : String) : Jv → Except PyExn Bool
  | .jobj kvs => .ok (kvs.any (fun kv => kv.1 == key))
  | .jarr xs => .ok (xs.any (fun x => match x with | .jstr s => s == key | _ => false))
  | .jstr s => .ok (pyIn key s)
  | _ => .error (.otherExn "argument is not iterable")

/-- Python `v[key]` with a string key (duplicate JSON keys collapse to the
last value, as in `dict`); raises on non-dicts and missing keys. -/
def jvGetStr (key : String) : Jv → Except PyExn Jv
  | .jobj kvs =>
    match (kvs.filter (fun kv => kv.1 == key)).getLast? with
    | some kv => .ok kv.2
    | none => .error (.otherExn "KeyError")
  | _ => .error (.otherExn "TypeError: not subscriptable by str")

/-- Python `len(v)`; raises on numbers, booleans and `None`. -/
def jvLen : Jv → Except PyExn ℕ
  | .jobj kvs => .ok ((kvs.map Prod.fst).dedup.length)
  | .jarr xs => .ok xs.length
  | .jstr s => .ok s.length
  | _ => .error (.otherExn "TypeError: no len")

/-- Python `v[0]`; raises on empty sequences, dicts (string keys only) and
scalars. -/
def jvIndex0 : Jv → Except PyExn Jv
  | .jarr [] => .error (.otherExn "IndexError")
  | .jarr (x :: _) => .ok x
  | .jstr s =>
    match s.data with
    | [] => .error (.otherExn "IndexError")
    | c :: _ => .ok (.jstr ⟨[c]⟩)
  | .jobj _ => .error (.otherExn "KeyError: 0")
  | _ => .error (.otherExn "TypeError: not subscriptable")

/-- Python `v.get(key, default)`; raises `AttributeError` on non-dicts. -/
def jvDictGet (key : String) (default : Jv) : Jv → Except PyExn Jv
  | .jobj kvs =>
    match (kvs.filter (fun kv => kv.1 == key)).getLast? with
    | some kv => .ok kv.2
    | none => .ok default
  | _ => .error (.otherExn "AttributeError: no attribute get")

/-- Step 1 of `_extract_content_from_result`: the standard OpenAI shape
`choices[0].message.content`, or `choices[0].text`. -/
def contentStep1 (result : Jv) : Except PyExn Jv :=
  match jvContainsKey "choices" result with
  | .error e => .error e
  | .ok false => .ok .jnull
  | .ok true =>
    match jvGetStr "choices" result with
    | .error e => .error e
    | .ok choices =>
      match jvLen choices with
      | .error e => .error e
      | .ok n =>
        if n > 0 then
          match jvIndex0 choices with
          | .error e => .error e
          | .ok first =>
            match jvContainsKey "message" first with
            | .error e => .error e
            | .ok true =>
              match jvGetStr "message" first with
              | .error e => .error e
              | .ok msg => jvDictGet "content" .jnull msg
            | .ok false =>
              match jvContainsKey "text" first with
              | .error e => .error e
              | .ok true => jvDictGet "text" .jnull first
              | .ok false => .ok .jnull
        else .ok .jnull

/-- Model of `_extract_content_from_result` (llm_processor.py, lines 376-399): the
four content locations tried in order while `content is None`. -/
def extract_content_from_result (result : Jv) : Except PyExn Jv :=
  let tryOutput : Jv → Except PyExn Jv := fun c =>
    if c.isNull then
      match jvContainsKey "output" result with
      | .error e => .error e
      | .ok true =>
        match jvDictGet "output" (.jobj []) result with
        | .error e => .error e
        | .ok ov => jvDictGet "content" .jnull ov
      | .ok false => .ok c
    else .ok c
  let tryKey : String → Jv → Except PyExn Jv := fun key c =>
    if c.isNull then
      match jvContainsKey key result with
      | .error e => .error e
      | .ok true => jvDictGet key .jnull result
      | .ok false => .ok c
    else .ok c
  match contentStep1 result with
  | .error e => .error e
  | .ok c1 =>
    match tryOutput c1 with
    | .error e => .error e
    | .ok c2 =>
      match tryKey "content" c2 with
      | .error e => .error e
      | .ok c3 => tryKey "response" c3

/-- Model of `_parse_content_to_json` (llm_processor.py, lines 401-419): strict parse,
then extraction and re-parse, then the error dictionary.  (Because
`_extract_json_from_text` only returns validated text or `"{}"`, the error
branch is reachable only through its fallback; unparseable content therefore
normally becomes the parsed empty object — the deliberate recoverable-empty
design of the extractor.) -/
def parse_content_to_json (content : String) : CallResult :=
  match jLoads content with
  | some v => .parsed v
  | none =>
    match jLoads (extract_json_from_text (some content)) with
    | some v => .parsed v
    | none => .errorResult "无法将LLM响应解析为JSON"

/-- The `try` block of `_call_llm_async` (llm_processor.py, lines 275-313):
non-200 responses return an error dictionary; an undecodable body, any
dynamic-typing error while digging out the content, and a non-string content
raise; a missing (`None`) content returns an error dictionary. -/
def call_llm_async_try (t : Transport) : Except PyExn CallResult :=
  match t with
  | .raised e => .error e
  | .resp status body =>
    if status ≠ 200 then
      .ok (.errorResult ("API请求失败: HTTP " ++ toString status))
    else
      match jLoads body with
      | none => .error (.otherExn "响应JSON解析失败")
      | some result =>
        match extract_content_from_result result with
        | .error e => .error e
        | .ok content =>
          if content.isNull then .ok (.errorResult "无法从响应中提取内容")
          else
            match content with
            | .jstr s => .ok (parse_content_to_json s)
            | _ => .error (.otherExn "the JSON object must be str")

/-- Model of `_call_llm_async` (llm_processor.py, lines 252-320): the `try` block with
its three `except` clauses; every exception is converted to an error
dictionary, so the function is total. -/
def call_llm_async (t : Transport) : CallResult :=
  match call_llm_async_try t with
  | .ok r => r
  | .error .timeoutExn => .errorResult "API请求超时"
  | .error .clientExn => .errorResult "无法连接到API服务器"
  | .error (.otherExn msg) => .errorResult ("调用LLM API时出错: " ++ msg)

/-- The failure categories of one call: a raised transport exception, a
non-200 status, an undecodable response body, a failing or missing or
non-string extracted content. -/
def transportFails (t : Transport) : Bool :=
  match t with
  | .raised _ => true
  | .resp status body =>
    if status ≠ 200 then true
    else
      match jLoads body with
      | none => true
      | some result =>
        match extract_content_from_result result with
        | .error _ => true
        | .ok content =>
          if content.isNull then true
          else
            match content with
            | .jstr _ => false
            | _ => true

/-- The combined dictionary assembled by `process_documents`. -/
structure CombinedResult where
  resume_analysis : CallResult
  offer_analyses : List CallResult

/-- One execution of `asyncio.gather`: given the eventual results of the
dispatched tasks in submission order, the result slots are filled in
completion order (the list of task indices in the order they complete). -/
def gatherFill {α : Type} (tasks : List α) (order : List ℕ) : List (Option α) :=
  order.foldl (fun slots i =>
    match tasks[i]? with
    | some v => slots.set i (some v)
    | none => slots) (List.replicate tasks.length none)

/-- Collect the slots once every task has completed; `none` while any slot is
still empty (gather has not returned yet). -/
def collectSlots {α : Type} : List (Option α) → Option (List α)
  | [] => some []
  | none :: _ => none
  | some x :: rest => (collectSlots rest).map (fun l => x :: l)

/-- Model of `asyncio.gather`: returns all results in submission order, only
once every task has completed. -/
def gatherExec {α : Type} (tasks : List α) (order : List ℕ) : Option (List α) :=
  collectSlots (gatherFill tasks order)

/-- Model of `process_documents` (llm_processor.py, lines 172-201): build the task
list — the resume first, then one task per offer text in submission order —
then fan out and gather.  All tasks exist before the single `await`; the
completion order of the concurrent calls is an arbitrary parameter of the
execution. -/
def process_documents (completionOrder : List ℕ) (resumeT : Transport)
    (offerTs : List Transport) : Option CombinedResult :=
  match gatherExec ((resumeT :: offerTs).map call_llm_async) completionOrder with
  | some (r0 :: rest) => some ⟨r0, rest⟩
  | _ => none

/-! ### Theorems -/

/-! ### Helper lemmas for the extractor -/
/-- A successful `find?` splits the list: everything before the hit fails the
test. -/
theorem list_find?_decomp {α : Type} (p : α → Bool) :
    ∀ (l : List α) (m : α), l.find? p = some m →
      ∃ pre suf, l = pre ++ m :: suf ∧ p m = true ∧ ∀ x ∈ pre, p x = false := by
  intro l
  induction l with
  | nil => intro m h; simp at h
  | cons a as ih =>
    intro m h
    cases hpa : p a with
    | true =>
      simp only [List.find?, hpa] at h
      obtain rfl := Option.some.inj h
      exact ⟨[], as, rfl, hpa, by simp⟩
    | false =>
      simp only [List.find?, hpa] at h
      obtain ⟨pre, suf, hEq, hm, hpre⟩ := ih m h
      refine ⟨a :: pre, suf, by rw [hEq]; rfl, hm, ?_⟩
      intro x hx
      rcases List.mem_cons.mp hx with rfl | hx'
      · exact hpa
      · exact hpre x hx'

/-- A successful `find?` on the reversed list is the *last* hit of the
original list: everything after it fails the test. -/
theorem reverse_find?_last {α : Type} (p : α → Bool) (l : List α) (m : α)
    (h : l.reverse.find? p = some m) :
    ∃ pre suf, l = pre ++ m :: suf ∧ p m = true ∧ ∀ x ∈ suf, p x = false := by
  obtain ⟨pre, suf, hEq, hm, hpre⟩ := list_find?_decomp p l.reverse m h
  refine ⟨suf.reverse, pre.reverse, ?_, hm, ?_⟩
  · calc l = l.reverse.reverse := (List.reverse_reverse l).symm
    _ = (pre ++ m :: suf).reverse := by rw [hEq]
    _ = suf.reverse ++ m :: pre.reverse := by
        simp [List.reverse_append, List.reverse_cons, List.append_assoc]
  · intro x hx
    exact hpre x (by simpa using hx)

/-- On brace-free text the balanced-brace scan finds nothing. -/
theorem braceScan_eq_nil (f : ℕ) :
    ∀ cs, braceFree cs = true → braceScan f cs = [] := by
  induction f with
  | zero => intro cs _; rfl
  | succ f ih =>
    intro cs hb
    cases cs with
    | nil => rfl
    | cons c cs' =>
      simp only [braceFree, List.all_cons, Bool.and_eq_true, Bool.not_eq_true',
        Bool.or_eq_false_iff, beq_eq_false_iff_ne, ne_eq] at hb
      obtain ⟨⟨hc1, _⟩, hrest⟩ := hb
      simp only [braceScan, if_neg hc1]
      exact ih cs' (by simpa [braceFree] using hrest)

/-- On brace-free text there is no `'{'` to find. -/
theorem findSub_brace_none : ∀ cs, braceFree cs = true → pyFindChar '{' cs = none := by
  intro cs
  induction cs with
  | nil => intro _; rfl
  | cons c cs' ih =>
    intro hb
    simp only [braceFree, List.all_cons, Bool.and_eq_true, Bool.not_eq_true',
      Bool.or_eq_false_iff, beq_eq_false_iff_ne, ne_eq] at hb
    obtain ⟨⟨hc1, _⟩, hrest⟩ := hb
    have hsw : charsStartWith ['{'] (c :: cs') = false := by
      simp [charsStartWith]
      exact fun h => hc1 h.symm
    simp only [pyFindChar, findSub, hsw] at *
    rw [if_neg (by simp [hsw])]
    have := ih (by simpa [braceFree] using hrest)
    simp only [pyFindChar] at this
    rw [this]
    rfl

/-- Characters of a `str.split` fragment come from the split text or the
accumulator. -/
theorem mem_splitOnCharAux {sep : Char} :
    ∀ (cs acc l : List Char) (c : Char),
      l ∈ splitOnCharAux sep cs acc → c ∈ l → c ∈ cs ∨ c ∈ acc := by
  intro cs
  induction cs with
  | nil =>
    intro acc l c hl hc
    simp only [splitOnCharAux, List.mem_singleton] at hl
    subst hl
    right; simpa using hc
  | cons d cs' ih =>
    intro acc l c hl hc
    by_cases hd : d = sep
    · simp only [splitOnCharAux, if_pos hd, List.mem_cons] at hl
      rcases hl with rfl | hl'
      · right; simpa using hc
      · rcases ih [] l c hl' hc with h | h
        · exact Or.inl (List.mem_cons_of_mem _ h)
        · simp at h
    · simp only [splitOnCharAux, if_neg hd] at hl
      rcases ih (d :: acc) l c hl hc with h | h
      · exact Or.inl (List.mem_cons_of_mem _ h)
      · rcases List.mem_cons.mp h with rfl | h'
        · exact Or.inl (List.mem_cons_self _ _)
        · exact Or.inr h'

/-- Stripping keeps only characters of the original line. -/
theorem mem_pyStripList {c : Char} {l : List Char} (h : c ∈ pyStripList l) : c ∈ l := by
  unfold pyStripList at h
  have h1 : c ∈ ((l.dropWhile pySpace).reverse.dropWhile pySpace) := by
    simpa using h
  have h2 : c ∈ (l.dropWhile pySpace).reverse :=
    (List.dropWhile_sublist _).subset h1
  have h3 : c ∈ l.dropWhile pySpace := by simpa using h2
  exact (List.dropWhile_sublist _).subset h3

/-- If no line contains `'{'`, the line-accumulation scan never starts. -/
theorem scan_lines_not_started :
    ∀ (lines : List (List Char)), (∀ l ∈ lines, '{' ∉ l) →
      ∀ acc, scan_lines lines false acc = none := by
  intro lines
  induction lines with
  | nil => intro _ acc; rfl
  | cons l rest ih =>
    intro h acc
    have hnostart : charsStartWith ['{'] (pyStripList l) = false := by
      cases hs : pyStripList l with
      | nil => rfl
      | cons c cs =>
        have hcinl : c ∈ l := mem_pyStripList (by rw [hs]; exact List.mem_cons_self _ _)
        have hne : c ≠ '{' := fun hc => h l (List.mem_cons_self _ _) (hc ▸ hcinl)
        simp [charsStartWith]
        exact fun hcc => hne hcc.symm
    simp only [scan_lines, Bool.not_false, if_pos, hnostart]
    rw [if_neg (by simp [hnostart])]
    exact ih (fun l' hl' => h l' (List.mem_cons_of_mem _ hl')) acc

/-! ### Claims C1 and C2 -/
/-- Claim C1: whenever at least one fenced code block (tagged `json` or
untagged) strictly parses as JSON, `_extract_json_from_text` returns the
(stripped) content of the last such parseable block.  The blocks are tried
from the last backward with return on first success, so the hit is the last
parseable one (everything after it in find-order fails to parse), and the
result is produced by the fenced-block strategy before any non-fenced
strategy can contribute. -/
theorem C1_fenced_last_parseable (text : String) (m : List Char)
    (h : (json_code_block_findall text).reverse.find?
        (fun b => json_loads_ok (pyStrip ⟨b⟩)) = some m) :
    extract_json_from_text (some text) = pyStrip ⟨m⟩ ∧
      ∃ pre suf, json_code_block_findall text = pre ++ m :: suf ∧
        json_loads_ok (pyStrip ⟨m⟩) = true ∧
        ∀ b ∈ suf, json_loads_ok (pyStrip ⟨b⟩) = false := by
  refine ⟨?_, reverse_find?_last _ _ _ h⟩
  simp only [extract_json_from_text]
  rw [h]

/-- Witness for Claim C1 at a concrete input. -/
theorem C1_fenced_last_parseable_witness :
    (json_code_block_findall c1Text).reverse.find?
        (fun b => json_loads_ok (pyStrip ⟨b⟩)) = some ("\x7b\"a\": 1\x7d".data) ∧
    extract_json_from_text (some c1Text) = "\x7b\"a\": 1\x7d" := by
  have h : (json_code_block_findall c1Text).reverse.find?
      (fun b => json_loads_ok (pyStrip ⟨b⟩)) = some ("\x7b\"a\": 1\x7d".data) := by decide
  refine ⟨h, ?_⟩
  have h2 := (C1_fenced_last_parseable c1Text _ h).1
  have h3 : pyStrip ⟨"\x7b\"a\": 1\x7d".data⟩ = "\x7b\"a\": 1\x7d" := by decide
  rw [h3] at h2
  exact h2

/-- Counterexample to Claim C2 as stated: the text `"```\n123\n```"` contains
no brace character, yet extraction returns `"123"` (the fenced block `123`
strictly parses as JSON), not the empty-object fallback. -/
theorem C2_counterexample_fenced_scalar :
    braceFree "```\n123\n```".data = true ∧
    extract_json_from_text (some "```\n123\n```") = "123" ∧
    ("123" : String) ≠ "\x7b\x7d" := by
  exact ⟨by decide, by decide, by decide⟩

/-- Claim C2 (amended): for every input containing no brace character *and in
which no fenced code block's stripped content parses as JSON* (in particular
for `None` and for any brace-free text with no fenced code block), extraction
returns the empty-object fallback `"{}"`; the function is total, so no
exception escapes. -/
theorem C2_amended_no_brace_fallback (otext : Option String)
    (hb : ∀ s, otext = some s → braceFree s.data = true)
    (hm : ∀ s, otext = some s →
        ∀ m ∈ json_code_block_findall s, json_loads_ok (pyStrip ⟨m⟩) = false) :
    extract_json_from_text otext = "\x7b\x7d" := by
  cases otext with
  | none => rfl
  | some s =>
    have hbs := hb s rfl
    have hms := hm s rfl
    have h1 : (json_code_block_findall s).reverse.find?
        (fun m => json_loads_ok (pyStrip ⟨m⟩)) = none := by
      rw [List.find?_eq_none]
      intro m hm'
      simp [hms m (List.mem_reverse.mp hm')]
    have h2 : json_pattern_findall s = [] := braceScan_eq_nil _ _ hbs
    have hm3 : method3 s.data = none := by
      unfold method3
      rw [findSub_brace_none _ hbs]
    have h4 : scan_lines (splitOnChar '\n' s.data) false [] = none := by
      apply scan_lines_not_started
      intro l hl hcl
      have hin : '{' ∈ s.data := by
        rcases mem_splitOnCharAux s.data [] l '{' hl hcl with h | h
        · exact h
        · simp at h
      have := List.all_eq_true.mp hbs '{' hin
      simp at this
    simp only [extract_json_from_text, h1, h2, hm3, h4, sortByLenDesc, List.foldl_nil,
      List.find?_nil]

/-- Witness for the amended Claim C2 at a concrete input. -/
theorem C2_amended_no_brace_fallback_witness :
    braceFree "hello world".data = true ∧
    extract_json_from_text (some "hello world") = "\x7b\x7d" := by
  refine ⟨by decide, ?_⟩
  exact C2_amended_no_brace_fallback (some "hello world")
    (fun s hs => by obtain rfl : "hello world" = s := Option.some.inj hs; decide)
    (fun s hs => by obtain rfl : "hello world" = s := Option.some.inj hs; decide)

/-- An `if`,`elif` chain that only raises a flag is the disjunction of its
conditions. -/
theorem bool_ifelse_or (a b : Bool) :
    (if a then true else if b then true else false) = (a || b) := by
  cases a <;> cases b <;> rfl

/-- The GPA check agrees with its existential description. -/
theorem gpaLow_iff (g : Option JVal) :
    gpaLow g = true ↔
      ∃ v, g = some v ∧ jvTruthy v = true ∧ jvIsNumOrStr v = true ∧
        ∃ x, pyFloatOf v = some x ∧ x.ltQ (mkRat 16 5) = true := by
  cases g with
  | none => simp [gpaLow]
  | some v =>
    cases hx : pyFloatOf v with
    | none => simp [gpaLow, hx]
    | some x => simp [gpaLow, hx, and_assoc]

/-- The per-test check agrees with its existential description; the `if`,
`elif` chain of the source is equivalent to the claim's disjunction. -/
theorem testLow_iff (t : TestScore) :
    testLow t = true ↔
      ∃ v, t.testScore = some v ∧ jvTruthy v = true ∧ jvIsNumOrStr v = true ∧
        ∃ x, scoreCoerce v = some x ∧
          (((pyIn "托福" (pyLower (t.testName.getD "")) ||
                pyIn "toefl" (pyLower (t.testName.getD ""))) &&
              x.ltQ 90) = true ∨
            ((pyIn "雅思" (pyLower (t.testName.getD "")) ||
                pyIn "ielts" (pyLower (t.testName.getD ""))) &&
              x.ltQ (mkRat 13 2)) = true) := by
  cases hv : t.testScore with
  | none => simp [testLow, hv]
  | some v =>
    cases hx : scoreCoerce v with
    | none => simp [testLow, hv, hx]
    | some x =>
      simp only [testLow, hv, hx, bool_ifelse_or]
      simp [hx, and_assoc]

/-- The `low_score` flag agrees with amended clause (a). -/
theorem lowScore_iff (d : StudentData) : lowScore d = true ↔ amendedLowSignal d := by
  unfold lowScore amendedLowSignal
  rw [Bool.or_eq_true, gpaLow_iff, List.any_eq_true]
  constructor
  · rintro (h | ⟨t, ht, hlow⟩)
    · exact Or.inl h
    · exact Or.inr ⟨t, ht, (testLow_iff t).mp hlow⟩
  · rintro (h | ⟨t, ht, hlow⟩)
    · exact Or.inl h
    · exact Or.inr ⟨t, ht, (testLow_iff t).mpr hlow⟩

/-- The `good_ranking` flag agrees with amended clause (b). -/
theorem goodRanking_iff (d : StudentData) :
    goodRanking (allAdmissions d) = true ↔ amendedGoodRanking d := by
  unfold goodRanking amendedGoodRanking
  rw [List.any_eq_true]
  constructor
  · rintro ⟨adm, hadm, hgood⟩
    refine ⟨adm, hadm, ?_⟩
    revert hgood
    unfold admGoodRanking
    cases hv : adm.rankingValue with
    | none => simp
    | some v =>
      cases hx : pyFloatOf v with
      | none => simp [hx]
      | some x => simp [hx, and_assoc]
  · rintro ⟨adm, hadm, v, hv, h1, h2, x, hx, hlt⟩
    refine ⟨adm, hadm, ?_⟩
    unfold admGoodRanking
    rw [hv]
    simp [hx, h1, h2, hlt]

/-- Counterexample to Claim C3 as stated: with `gpaValue = 0` (which coerces
to `0.0 < 3.2`) and an admission with `rankingValue = "45"` (which coerces to
`45 < 100`), both of the claim's conditions hold, yet `calculate_student_tags`
emits no tag at all — the source skips Python-falsy values before coercion. -/
theorem C3_counterexample_falsy_gpa :
    claimLowSignal c3Counter = true ∧
    claimGoodRanking (allAdmissions c3Counter) = true ∧
    calculate_student_tags c3Counter = none := by
  refine ⟨by decide, by decide, by decide⟩

/-- Claim C3 (amended): `calculate_student_tags` emits `"低分逆袭"` iff both
(a) a low-score signal from a *truthy, `int`,`float`,`str`-typed* value exists
— GPA < 3.2, or a TOEFL-named test below 90, or an IELTS-named test below 6.5,
with the colon coercion rule — and (b) some admission has a *truthy, typed*
`rankingValue` coercing below 100; and on the claim's concrete instance the
output is exactly the single tag `"低分逆袭"`. -/
theorem C3_amended_low_score_comeback :
    (∀ d : StudentData,
      ("低分逆袭" ∈ student_tags_list d ↔ (amendedLowSignal d ∧ amendedGoodRanking d))) ∧
    calculate_student_tags c3Instance = some "低分逆袭" := by
  constructor
  · intro d
    have hmem : ("低分逆袭" ∈ student_tags_list d) ↔
        (lowScore d && goodRanking (allAdmissions d)) = true := by
      simp only [student_tags_list, List.mem_append]
      cases h1 : hasScholarshipTag (allAdmissions d) <;>
        cases h2 : lowScore d && goodRanking (allAdmissions d) <;>
          cases h3 : k12Tag (allAdmissions d) <;> simp
    rw [hmem, Bool.and_eq_true, lowScore_iff, goodRanking_iff]
  · decide

/-- Counterexample to Claim C4 as stated: the third rule fires (and the tag is
emitted) although `rankingType` is present — the source requires only *one* of
`rankingValue`, `rankingType` to be falsy, not both. -/
theorem C4_counterexample_rankingType_present :
    triggersViaRule3 c4Adm = true ∧
    c4Adm.rankingType = some "QS" ∧
    strTruthy c4Adm.rankingType = true ∧
    calculate_student_tags c4Record = some "低龄留学" := by
  refine ⟨by decide, by decide, by decide, by decide⟩

/-- Claim C4 (amended): an admission triggers the YoungStudyAbroad tag via the
third rule only when its `degreeType` is `OTHER`, *at least one* of
`rankingValue` and `rankingType` is falsy (absent or empty), and its program
is empty, a no-major value, or contains `general`; the rules short-circuit per
admission, so a rule-3 trigger also means rules 1 and 2 did not match, and it
makes the admission-level check fire. -/
theorem C4_amended_rule3_only_if (adm : Admission)
    (h : triggersViaRule3 adm = true) :
    adm.degreeType = some "OTHER" ∧
    (optTruthy adm.rankingValue = false ∨ strTruthy adm.rankingType = false) ∧
    (admProgramL adm = "" ∨ admProgramL adm = "专业未定" ∨ admProgramL adm = "无专业" ∨
      pyIn "general" (pyLower (admProgramL adm)) = true) ∧
    admissionK12 adm = true := by
  have hcomp : (adm.degreeType == some "OTHER") = true ∧ k12Rule1 adm = false ∧
      k12Rule2 adm = false ∧ k12Rule3 adm = true := by
    unfold triggersViaRule3 at h
    cases hg : (adm.degreeType == some "OTHER") <;> rw [hg] at h <;>
      cases h1 : k12Rule1 adm <;> rw [h1] at h <;>
        cases h2 : k12Rule2 adm <;> rw [h2] at h <;>
          cases h3 : k12Rule3 adm <;> rw [h3] at h <;> simp_all
  obtain ⟨hgate, hr1, hr2, hr3⟩ := hcomp
  have hr3' : ((adm.degreeType == some "OTHER") &&
      (!(optTruthy adm.rankingValue) || !(strTruthy adm.rankingType)) &&
      (admProgramL adm == "专业未定" || admProgramL adm == "无专业" ||
        pyIn "general" (pyLower (admProgramL adm)))) = true := hr3
  rw [Bool.and_eq_true, Bool.and_eq_true] at hr3'
  obtain ⟨⟨_, hval⟩, hprog⟩ := hr3'
  refine ⟨eq_of_beq hgate, ?_, ?_, ?_⟩
  · cases hx : optTruthy adm.rankingValue with
    | false => exact Or.inl rfl
    | true =>
      cases hy : strTruthy adm.rankingType with
      | false => exact Or.inr rfl
      | true => rw [hx, hy] at hval; exact absurd hval (by decide)
  · rw [Bool.or_eq_true, Bool.or_eq_true] at hprog
    rcases hprog with (hp | hp) | hp
    · exact Or.inr (Or.inl (eq_of_beq hp))
    · exact Or.inr (Or.inr (Or.inl (eq_of_beq hp)))
    · exact Or.inr (Or.inr (Or.inr hp))
  · unfold admissionK12
    rw [hgate, hr1, hr2, hr3]
    rfl

/-- The helper `Nat.toDigitsCore` never shrinks its accumulator. -/
theorem toDigitsCore_length_le (b : ℕ) :
    ∀ (fuel n : ℕ) (ds : List Char),
      ds.length ≤ (Nat.toDigitsCore b fuel n ds).length := by
  intro fuel
  induction fuel with
  | zero => intro n ds; simp [Nat.toDigitsCore]
  | succ f ih =>
    intro n ds
    rw [Nat.toDigitsCore]
    by_cases h : n / b = 0
    · simp [h]
    · rw [if_neg h]
      calc ds.length ≤ (Nat.digitChar (n % b) :: ds).length := by simp
        _ ≤ _ := ih (n / b) (Nat.digitChar (n % b) :: ds)

/-- The decimal representation of a natural number is never the empty string
(so an assigned `rankingValue` of `str(rank)` is always truthy). -/
theorem natToString_ne_empty (n : ℕ) : (toString n ≠ "") := by
  show Nat.repr n ≠ ""
  unfold Nat.repr
  intro hcontra
  have hlen : (Nat.toDigits 10 n).length = 0 := by
    have := congrArg (fun s => s.data.length) hcontra
    simpa [List.asString] using this
  have h1 : (1 : ℕ) ≤ (Nat.toDigits 10 n).length := by
    unfold Nat.toDigits
    rw [Nat.toDigitsCore]
    by_cases h : n / 10 = 0
    · simp [h]
    · rw [if_neg h]
      have := toDigitsCore_length_le 10 n (n / 10) [Nat.digitChar (n % 10)]
      simpa using this
  omega

/-- A `rankingValue` written by the engine is truthy, so a second pass skips
the admission. -/
theorem enrichAdmission_set_truthy (r : ℕ) :
    optTruthy (some (JVal.jvStr (toString r))) = true := by
  simp [optTruthy, jvTruthy, natToString_ne_empty r]

/-- Case analysis of one admission's enrichment: either nothing happens, or a
nonzero rank was found and exactly `rankingValue`, `rankingTier` change. -/
theorem enrichAdmission_cases (qs usnews : RankingTable) (adm : Admission) :
    enrichAdmission qs usnews adm = adm ∨
      ∃ r : ℕ, r ≠ 0 ∧ optTruthy adm.rankingValue = false ∧
        enrichAdmission qs usnews adm =
          { adm with rankingValue := some (.jvStr (toString r)),
                     rankingTier := rankingTierOf r adm.rankingTier } := by
  unfold enrichAdmission
  by_cases h0 : optTruthy adm.rankingValue = true
  · simp [h0]
  · have h0' : optTruthy adm.rankingValue = false := by
      cases h : optTruthy adm.rankingValue
      · rfl
      · exact absurd h h0
    rw [if_neg (by simp [h0'])]
    by_cases hqs : adm.rankingType.getD "" = "QS"
    · rw [if_pos hqs]
      unfold enrichWith
      cases hl : lookupRank qs (adm.school.getD "") with
      | none => exact Or.inl rfl
      | some r =>
        by_cases hr : r = 0
        · simp [hr]
        · refine Or.inr ⟨r, hr, h0', ?_⟩
          simp [hr]
    · rw [if_neg hqs]
      by_cases hus : adm.rankingType.getD "" = "US News"
      · rw [if_pos hus]
        unfold enrichWith
        cases hl : lookupRank usnews (adm.school.getD "") with
        | none => exact Or.inl rfl
        | some r =>
          by_cases hr : r = 0
          · simp [hr]
          · refine Or.inr ⟨r, hr, h0', ?_⟩
            simp [hr]
      · rw [if_neg hus]
        exact Or.inl rfl

/-- A truthy `rankingValue` makes the engine skip the admission entirely. -/
theorem enrichAdmission_skips_truthy (qs usnews : RankingTable) (adm : Admission)
    (h : optTruthy adm.rankingValue = true) :
    enrichAdmission qs usnews adm = adm := by
  unfold enrichAdmission
  rw [if_pos h]

/-- One admission's enrichment is idempotent. -/
theorem enrichAdmission_idem (qs usnews : RankingTable) (adm : Admission) :
    enrichAdmission qs usnews (enrichAdmission qs usnews adm) =
      enrichAdmission qs usnews adm := by
  rcases enrichAdmission_cases qs usnews adm with h | ⟨r, hr, h0, h⟩
  · rw [h, h]
  · rw [h]
    apply enrichAdmission_skips_truthy
    exact enrichAdmission_set_truthy r

/-- The table scan finds the first matching entry: everything before it fails
the fuzzy match. -/
theorem lookupRank_first_match :
    ∀ (t : RankingTable) (s : String) (r : ℕ), lookupRank t s = some r →
      ∃ pre name suf, t = pre ++ (r, name) :: suf ∧ matchName s name = true ∧
        ∀ e ∈ pre, matchName s e.2 = false := by
  intro t
  induction t with
  | nil => intro s r h; simp [lookupRank] at h
  | cons e rest ih =>
    intro s r h
    obtain ⟨rank, name⟩ := e
    simp only [lookupRank] at h
    by_cases hm : matchName s name = true
    · rw [if_pos hm] at h
      obtain rfl := Option.some.inj h
      exact ⟨[], name, rest, rfl, hm, by simp⟩
    · have hm' : matchName s name = false := by
        cases hmm : matchName s name
        · rfl
        · exact absurd hmm hm
      rw [if_neg hm] at h
      obtain ⟨pre, nm, suf, hEq, hm2, hpre⟩ := ih s r h
      refine ⟨(rank, name) :: pre, nm, suf, by rw [hEq]; rfl, hm2, ?_⟩
      intro e' he'
      rcases List.mem_cons.mp he' with rfl | h'
      · exact hm'
      · exact hpre e' h'

/-- The table scan fails exactly when no entry fuzzy-matches. -/
theorem lookupRank_none_iff (t : RankingTable) (s : String) :
    lookupRank t s = none ↔ ∀ e ∈ t, matchName s e.2 = false := by
  induction t with
  | nil => simp [lookupRank]
  | cons e rest ih =>
    obtain ⟨rank, name⟩ := e
    by_cases hm : matchName s name = true
    · simp [lookupRank, hm]
    · have hm' : matchName s name = false := by
        cases hmm : matchName s name
        · rfl
        · exact absurd hmm hm
      simp [lookupRank, hm', ih]

/-- Claim C5: when the engine matches an admission (empty `rankingValue`,
whichever of the QS or US News table its `rankingType` selects) to a nonzero
rank `r`, `rankingValue` becomes `str(r)` and `rankingTier` follows the fixed
thresholds, with ranks above 100 leaving the tier as it was; concretely rank
5 gives TOP5, 6 gives TOP10, 30 gives TOP30, 31 gives TOP50, 100 gives
TOP100, and 101 sets no tier, on both tables. -/
theorem C5_matched_rank_value_and_tier (qs usnews : RankingTable) (adm : Admission) (r : ℕ)
    (hempty : optTruthy adm.rankingValue = false)
    (hsel : (adm.rankingType.getD "" = "QS" ∧
        lookupRank qs (adm.school.getD "") = some r) ∨
      (adm.rankingType.getD "" = "US News" ∧
        lookupRank usnews (adm.school.getD "") = some r))
    (hpos : 0 < r) :
    ((enrichAdmission qs usnews adm).rankingValue = some (.jvStr (toString r)) ∧
      (enrichAdmission qs usnews adm).rankingTier =
        (if r ≤ 5 then some "TOP5" else if r ≤ 10 then some "TOP10"
         else if r ≤ 30 then some "TOP30" else if r ≤ 50 then some "TOP50"
         else if r ≤ 100 then some "TOP100" else adm.rankingTier)) ∧
    (100 < r → (enrichAdmission qs usnews adm).rankingTier = adm.rankingTier) ∧
    ((enrichAdmission [(5, "U")] [] c5AdmU).rankingTier = some "TOP5" ∧
      (enrichAdmission [(6, "U")] [] c5AdmU).rankingTier = some "TOP10" ∧
      (enrichAdmission [(30, "U")] [] c5AdmU).rankingTier = some "TOP30" ∧
      (enrichAdmission [(31, "U")] [] c5AdmU).rankingTier = some "TOP50" ∧
      (enrichAdmission [(100, "U")] [] c5AdmU).rankingTier = some "TOP100" ∧
      (enrichAdmission [(101, "U")] [] c5AdmU).rankingTier = none ∧
      (enrichAdmission [(101, "U")] [] c5AdmU).rankingValue = some (.jvStr "101") ∧
      (enrichAdmission [] [(5, "U")] c5AdmUS).rankingTier = some "TOP5" ∧
      (enrichAdmission [] [(6, "U")] c5AdmUS).rankingTier = some "TOP10" ∧
      (enrichAdmission [] [(30, "U")] c5AdmUS).rankingTier = some "TOP30" ∧
      (enrichAdmission [] [(31, "U")] c5AdmUS).rankingTier = some "TOP50" ∧
      (enrichAdmission [] [(100, "U")] c5AdmUS).rankingTier = some "TOP100" ∧
      (enrichAdmission [] [(101, "U")] c5AdmUS).rankingTier = none ∧
      (enrichAdmission [] [(101, "U")] c5AdmUS).rankingValue = some (.jvStr "101")) := by
  have hr0 : r ≠ 0 := by omega
  have hmain : enrichAdmission qs usnews adm =
      { adm with rankingValue := some (.jvStr (toString r)),
                 rankingTier := rankingTierOf r adm.rankingTier } := by
    rcases hsel with ⟨htype, hmatch⟩ | ⟨htype, hmatch⟩
    · unfold enrichAdmission
      rw [if_neg (by simp [hempty]), if_pos htype]
      unfold enrichWith
      rw [hmatch]
      simp [hr0]
    · unfold enrichAdmission
      rw [if_neg (by simp [hempty]), if_neg (by rw [htype]; decide), if_pos htype]
      unfold enrichWith
      rw [hmatch]
      simp [hr0]
  refine ⟨⟨?_, ?_⟩, ?_, by decide⟩
  · rw [hmain]
  · rw [hmain]
    show rankingTierOf r adm.rankingTier = _
    unfold rankingTierOf
    rfl
  · intro h100
    rw [hmain]
    show rankingTierOf r adm.rankingTier = adm.rankingTier
    unfold rankingTierOf
    rw [if_neg (by omega), if_neg (by omega), if_neg (by omega),
      if_neg (by omega), if_neg (by omega)]

/-- Witness for Claim C5 at concrete tables and admissions, exercising both
the QS branch (rank 7) and the US News branch (rank 40). -/
theorem C5_matched_rank_value_and_tier_witness :
    (optTruthy c5AdmU.rankingValue = false ∧ c5AdmU.rankingType.getD "" = "QS" ∧
      lookupRank [(7, "U")] (c5AdmU.school.getD "") = some 7 ∧ 0 < 7) ∧
    (enrichAdmission [(7, "U")] [] c5AdmU).rankingValue = some (.jvStr (toString 7)) ∧
    (enrichAdmission [(7, "U")] [] c5AdmU).rankingTier = some "TOP10" ∧
    (optTruthy c5AdmUS.rankingValue = false ∧
      c5AdmUS.rankingType.getD "" = "US News" ∧
      lookupRank [(40, "U")] (c5AdmUS.school.getD "") = some 40 ∧ 0 < 40) ∧
    (enrichAdmission [] [(40, "U")] c5AdmUS).rankingValue = some (.jvStr (toString 40)) ∧
    (enrichAdmission [] [(40, "U")] c5AdmUS).rankingTier = some "TOP50" :=
  ⟨⟨by decide, by decide, by decide, by decide⟩,
    (C5_matched_rank_value_and_tier [(7, "U")] [] c5AdmU 7
      (by decide) (Or.inl ⟨by decide, by decide⟩) (by decide)).1.1,
    by
      have h := (C5_matched_rank_value_and_tier [(7, "U")] [] c5AdmU 7
        (by decide) (Or.inl ⟨by decide, by decide⟩) (by decide)).1.2
      simpa using h,
    ⟨by decide, by decide, by decide, by decide⟩,
    (C5_matched_rank_value_and_tier [] [(40, "U")] c5AdmUS 40
      (by decide) (Or.inr ⟨by decide, by decide⟩) (by decide)).1.1,
    by
      have h := (C5_matched_rank_value_and_tier [] [(40, "U")] c5AdmUS 40
        (by decide) (Or.inr ⟨by decide, by decide⟩) (by decide)).1.2
      simpa using h⟩

/-- Claim C6: the fuzzy match is case-insensitive substring containment in
either direction; the first entry matched in table iteration order wins; a
`rankingType` other than `"QS"`,`"US News"`, or the absence of any match,
leaves the admission unchanged without error. -/
theorem C6_fuzzy_first_match_or_skip :
    (∀ (s e : String), matchName s e =
      (pyIn (pyLower s) (pyLower e) || pyIn (pyLower e) (pyLower s))) ∧
    (∀ (t : RankingTable) (s : String) (r : ℕ), lookupRank t s = some r →
      ∃ pre name suf, t = pre ++ (r, name) :: suf ∧ matchName s name = true ∧
        ∀ e ∈ pre, matchName s e.2 = false) ∧
    (∀ (t : RankingTable) (s : String),
      lookupRank t s = none ↔ ∀ e ∈ t, matchName s e.2 = false) ∧
    (∀ (qs usnews : RankingTable) (adm : Admission),
      optTruthy adm.rankingValue = false →
      adm.rankingType.getD "" ≠ "QS" → adm.rankingType.getD "" ≠ "US News" →
      enrichAdmission qs usnews adm = adm) ∧
    (∀ (qs usnews : RankingTable) (adm : Admission),
      lookupRank qs (adm.school.getD "") = none →
      lookupRank usnews (adm.school.getD "") = none →
      enrichAdmission qs usnews adm = adm) := by
  refine ⟨fun s e => rfl, lookupRank_first_match, lookupRank_none_iff, ?_, ?_⟩
  · intro qs usnews adm hempty hq hu
    unfold enrichAdmission
    rw [if_neg (by simp [hempty]), if_neg hq, if_neg hu]
  · intro qs usnews adm hq hu
    unfold enrichAdmission
    by_cases h0 : optTruthy adm.rankingValue = true
    · rw [if_pos h0]
    · rw [if_neg h0]
      by_cases hty : adm.rankingType.getD "" = "QS"
      · rw [if_pos hty]
        unfold enrichWith
        rw [hq]
      · rw [if_neg hty]
        by_cases hty2 : adm.rankingType.getD "" = "US News"
        · rw [if_pos hty2]
          unfold enrichWith
          rw [hu]
        · rw [if_neg hty2]

/-- Witness for Claim C6: a quotient of its parts at concrete inputs. -/
theorem C6_fuzzy_first_match_or_skip_witness :
    (lookupRank [(1, "MIT"), (2, "Harvard University")] "harvard" = some 2) ∧
    (∃ pre name suf,
      ([(1, "MIT"), (2, "Harvard University")] : RankingTable) = pre ++ (2, name) :: suf ∧
        matchName "harvard" name = true ∧ ∀ e ∈ pre, matchName "harvard" e.2 = false) ∧
    (optTruthy c6AdmTimes.rankingValue = false ∧
      enrichAdmission [(1, "Harvard University")] [] c6AdmTimes = c6AdmTimes) :=
  ⟨by decide,
    C6_fuzzy_first_match_or_skip.2.1 [(1, "MIT"), (2, "Harvard University")] "harvard" 2
      (by decide),
    by decide,
    C6_fuzzy_first_match_or_skip.2.2.2.1 [(1, "Harvard University")] [] c6AdmTimes
      (by decide) (by decide) (by decide)⟩

/-- Claim C7: enrichment is idempotent — a second pass changes nothing — and
an admission whose `rankingValue` is already truthy is never modified. -/
theorem C7_enrich_idempotent :
    (∀ (qs usnews : RankingTable) (d : StudentData),
      enrich_school_rankings qs usnews (enrich_school_rankings qs usnews d) =
        enrich_school_rankings qs usnews d) ∧
    (∀ (qs usnews : RankingTable) (adm : Admission),
      optTruthy adm.rankingValue = true → enrichAdmission qs usnews adm = adm) := by
  constructor
  · intro qs usnews d
    unfold enrich_school_rankings
    congr 1
    rw [List.map_map]
    apply List.map_congr_left
    intro offer _
    show enrichOffer qs usnews (enrichOffer qs usnews offer) = enrichOffer qs usnews offer
    obtain ⟨adms, ext⟩ := offer
    unfold enrichOffer
    congr 1
    rw [List.map_map]
    exact List.map_congr_left (fun adm _ => enrichAdmission_idem qs usnews adm)
  · exact enrichAdmission_skips_truthy

/-- Witness for Claim C7 at a concrete populated admission. -/
theorem C7_enrich_idempotent_witness :
    optTruthy c7AdmSet.rankingValue = true ∧
    enrichAdmission [(1, "Harvard University")] [] c7AdmSet = c7AdmSet :=
  ⟨by decide,
    C7_enrich_idempotent.2 [(1, "Harvard University")] [] c7AdmSet (by decide)⟩

/-- Every field of an admission other than `rankingValue` and `rankingTier`
survives enrichment. -/
theorem enrichAdmission_frame (qs usnews : RankingTable) (adm : Admission) :
    (enrichAdmission qs usnews adm).school = adm.school ∧
    (enrichAdmission qs usnews adm).program = adm.program ∧
    (enrichAdmission qs usnews adm).country = adm.country ∧
    (enrichAdmission qs usnews adm).majorCategory = adm.majorCategory ∧
    (enrichAdmission qs usnews adm).degreeType = adm.degreeType ∧
    (enrichAdmission qs usnews adm).rankingType = adm.rankingType ∧
    (enrichAdmission qs usnews adm).enrollmentSeason = adm.enrollmentSeason ∧
    (enrichAdmission qs usnews adm).hasScholarship = adm.hasScholarship ∧
    (enrichAdmission qs usnews adm).scholarshipAmount = adm.scholarshipAmount ∧
    (enrichAdmission qs usnews adm).scholarshipNote = adm.scholarshipNote ∧
    (enrichAdmission qs usnews adm).extra = adm.extra := by
  rcases enrichAdmission_cases qs usnews adm with h | ⟨r, _, _, h⟩
  · rw [h]
    exact ⟨rfl, rfl, rfl, rfl, rfl, rfl, rfl, rfl, rfl, rfl, rfl⟩
  · rw [h]
    exact ⟨rfl, rfl, rfl, rfl, rfl, rfl, rfl, rfl, rfl, rfl, rfl⟩

/-- Claim C10: enrichment touches at most `rankingValue` and `rankingTier` of
admissions whose `rankingValue` was falsy; every other admission field, every
already-populated admission, and everything outside `offer_analyses`
(`resume_analysis`, `tags`, extra keys) comes back unchanged.  (The Python
function mutates and returns the very object it was given; the functional
embedding renders that as these equalities.) -/
theorem C10_enrich_frame (qs usnews : RankingTable) (d : StudentData) :
    (enrich_school_rankings qs usnews d).resume_analysis = d.resume_analysis ∧
    (enrich_school_rankings qs usnews d).tags = d.tags ∧
    (enrich_school_rankings qs usnews d).extra = d.extra ∧
    (enrich_school_rankings qs usnews d).offer_analyses.length =
      d.offer_analyses.length ∧
    ∀ (i : ℕ) (offer : OfferAnalysis), d.offer_analyses[i]? = some offer →
      ∃ offer' : OfferAnalysis,
        (enrich_school_rankings qs usnews d).offer_analyses[i]? = some offer' ∧
        offer'.extra = offer.extra ∧
        offer'.admissions.length = offer.admissions.length ∧
        ∀ (j : ℕ) (adm : Admission), offer.admissions[j]? = some adm →
          offer'.admissions[j]? = some (enrichAdmission qs usnews adm) ∧
          ((enrichAdmission qs usnews adm).school = adm.school ∧
            (enrichAdmission qs usnews adm).program = adm.program ∧
            (enrichAdmission qs usnews adm).country = adm.country ∧
            (enrichAdmission qs usnews adm).majorCategory = adm.majorCategory ∧
            (enrichAdmission qs usnews adm).degreeType = adm.degreeType ∧
            (enrichAdmission qs usnews adm).rankingType = adm.rankingType ∧
            (enrichAdmission qs usnews adm).enrollmentSeason = adm.enrollmentSeason ∧
            (enrichAdmission qs usnews adm).hasScholarship = adm.hasScholarship ∧
            (enrichAdmission qs usnews adm).scholarshipAmount = adm.scholarshipAmount ∧
            (enrichAdmission qs usnews adm).scholarshipNote = adm.scholarshipNote ∧
            (enrichAdmission qs usnews adm).extra = adm.extra) ∧
          (optTruthy adm.rankingValue = true → enrichAdmission qs usnews adm = adm) := by
  refine ⟨rfl, rfl, rfl, by simp [enrich_school_rankings], ?_⟩
  intro i offer hi
  refine ⟨enrichOffer qs usnews offer, ?_, rfl, by simp [enrichOffer], ?_⟩
  · show (d.offer_analyses.map (enrichOffer qs usnews))[i]? = _
    rw [List.getElem?_map, hi]
    rfl
  · intro j adm hj
    refine ⟨?_, enrichAdmission_frame qs usnews adm,
      enrichAdmission_skips_truthy qs usnews adm⟩
    show (offer.admissions.map (enrichAdmission qs usnews))[j]? = _
    rw [List.getElem?_map, hj]
    rfl

/-- Witness for Claim C10 at a concrete record. -/
theorem C10_enrich_frame_witness :
    c10Rec.offer_analyses[0]? = some c10Offer ∧
    (enrich_school_rankings [(1, "Harvard University")] [] c10Rec).tags = c10Rec.tags ∧
    (∃ offer' : OfferAnalysis,
      (enrich_school_rankings [(1, "Harvard University")] [] c10Rec).offer_analyses[0]? =
        some offer' ∧
      offer'.extra = c10Offer.extra ∧
      offer'.admissions.length = c10Offer.admissions.length ∧
      ∀ (j : ℕ) (adm : Admission), c10Offer.admissions[j]? = some adm →
        offer'.admissions[j]? =
          some (enrichAdmission [(1, "Harvard University")] [] adm) ∧
        ((enrichAdmission [(1, "Harvard University")] [] adm).school = adm.school ∧
          (enrichAdmission [(1, "Harvard University")] [] adm).program = adm.program ∧
          (enrichAdmission [(1, "Harvard University")] [] adm).country = adm.country ∧
          (enrichAdmission [(1, "Harvard University")] [] adm).majorCategory =
            adm.majorCategory ∧
          (enrichAdmission [(1, "Harvard University")] [] adm).degreeType =
            adm.degreeType ∧
          (enrichAdmission [(1, "Harvard University")] [] adm).rankingType =
            adm.rankingType ∧
          (enrichAdmission [(1, "Harvard University")] [] adm).enrollmentSeason =
            adm.enrollmentSeason ∧
          (enrichAdmission [(1, "Harvard University")] [] adm).hasScholarship =
            adm.hasScholarship ∧
          (enrichAdmission [(1, "Harvard University")] [] adm).scholarshipAmount =
            adm.scholarshipAmount ∧
          (enrichAdmission [(1, "Harvard University")] [] adm).scholarshipNote =
            adm.scholarshipNote ∧
          (enrichAdmission [(1, "Harvard University")] [] adm).extra = adm.extra) ∧
        (optTruthy adm.rankingValue = true →
          enrichAdmission [(1, "Harvard University")] [] adm = adm)) :=
  ⟨by decide,
    (C10_enrich_frame [(1, "Harvard University")] [] c10Rec).2.1,
    (C10_enrich_frame [(1, "Harvard University")] [] c10Rec).2.2.2.2 0 c10Offer
      (by decide)⟩

/-- Witness for the amended Claim C4 at the concrete admission. -/
theorem C4_amended_rule3_only_if_witness :
    triggersViaRule3 c4Adm = true ∧
    (c4Adm.degreeType = some "OTHER" ∧
      (optTruthy c4Adm.rankingValue = false ∨ strTruthy c4Adm.rankingType = false) ∧
      (admProgramL c4Adm = "" ∨ admProgramL c4Adm = "专业未定" ∨
        admProgramL c4Adm = "无专业" ∨
        pyIn "general" (pyLower (admProgramL c4Adm)) = true) ∧
      admissionK12 c4Adm = true) :=
  ⟨by decide, C4_amended_rule3_only_if c4Adm (by decide)⟩

/-- Slot contents after folding a completion order over the slot array. -/
theorem gatherFill_fold_getElem {α : Type} (tasks : List α) :
    ∀ (order : List ℕ) (slots : List (Option α)), slots.length = tasks.length →
      ∀ j : ℕ,
        (order.foldl (fun slots i =>
          match tasks[i]? with
          | some v => slots.set i (some v)
          | none => slots) slots)[j]? =
        if j ∈ order ∧ j < tasks.length then some tasks[j]? else slots[j]? := by
  intro order
  induction order with
  | nil =>
    intro slots _ j
    simp
  | cons i rest ih =>
    intro slots hlen j
    rw [List.foldl_cons]
    have hstep : (match tasks[i]? with
        | some v => slots.set i (some v)
        | none => slots).length = tasks.length := by
      cases tasks[i]? <;> simp [hlen]
    rw [ih _ hstep j]
    by_cases hjr : j ∈ rest ∧ j < tasks.length
    · rw [if_pos hjr, if_pos ⟨List.mem_cons_of_mem _ hjr.1, hjr.2⟩]
    · rw [if_neg hjr]
      by_cases hji : j = i
      · subst hji
        by_cases hlt : j < tasks.length
        · cases hv : tasks[j]? with
          | none =>
            exfalso
            rw [List.getElem?_eq_none_iff] at hv
            omega
          | some v =>
            rw [if_pos ⟨List.mem_cons_self _ _, hlt⟩]
            exact List.getElem?_set_self (by rw [hlen]; exact hlt)
        · have hv : tasks[j]? = none := by
            rw [List.getElem?_eq_none_iff]
            omega
          rw [hv, if_neg (fun hc => hlt hc.2)]
      · have hstepj : (match tasks[i]? with
            | some v => slots.set i (some v)
            | none => slots)[j]? = slots[j]? := by
          cases tasks[i]? with
          | none => rfl
          | some v => exact List.getElem?_set_ne (fun h => hji h.symm)
        rw [hstepj, if_neg ?hc]
        case hc =>
          rintro ⟨hmem, hlt⟩
          rcases List.mem_cons.mp hmem with rfl | hmem'
          · exact hji rfl
          · exact hjr ⟨hmem', hlt⟩

/-- When every task index appears in the completion order, every slot is
filled with its own task's result. -/
theorem gatherFill_covered {α : Type} (tasks : List α) (order : List ℕ)
    (hcov : ∀ j, j < tasks.length → j ∈ order) :
    gatherFill tasks order = tasks.map some := by
  apply List.ext_getElem?
  intro j
  unfold gatherFill
  rw [gatherFill_fold_getElem tasks order _ (by simp) j]
  rw [List.getElem?_map]
  by_cases hj : j < tasks.length
  · rw [if_pos ⟨hcov j hj, hj⟩]
    cases hv : tasks[j]? with
    | none =>
      exfalso
      rw [List.getElem?_eq_none_iff] at hv
      omega
    | some v => rfl
  · rw [if_neg (fun hc => hj hc.2), List.getElem?_replicate, if_neg hj]
    have hv : tasks[j]? = none := by
      rw [List.getElem?_eq_none_iff]
      omega
    rw [hv]
    rfl

/-- Collecting fully-filled slots yields the results themselves. -/
theorem collectSlots_map_some {α : Type} (l : List α) :
    collectSlots (l.map some) = some l := by
  induction l with
  | nil => rfl
  | cons x xs ih => simp [collectSlots, ih]

/-- A still-empty slot means gather has not returned. -/
theorem collectSlots_none_of_slot {α : Type} :
    ∀ (l : List (Option α)) (j : ℕ), l[j]? = some none → collectSlots l = none := by
  intro l
  induction l with
  | nil => intro j h; simp at h
  | cons o rest ih =>
    intro j h
    cases o with
    | none => rfl
    | some x =>
      cases j with
      | zero => simp at h
      | succ j' =>
        have := ih j' (by simpa using h)
        simp [collectSlots, this]

/-- A fully-covered completion order makes the orchestrator return the
combined record with the resume slot first and the offer slots in submission
order. -/
theorem process_documents_covered (ord : List ℕ) (rT : Transport)
    (oTs : List Transport) (hcov : ∀ j, j < oTs.length + 1 → j ∈ ord) :
    process_documents ord rT oTs =
      some ⟨call_llm_async rT, oTs.map call_llm_async⟩ := by
  unfold process_documents gatherExec
  rw [gatherFill_covered _ ord (by simpa using hcov)]
  rw [collectSlots_map_some]
  rfl

/-! ### Claims C8 and C9 -/
/-- Claim C8: the orchestrator's combined result is always returned normally;
every failing transport outcome — a raised timeout, connection or other
exception, a non-200 status, an undecodable body, or a failing, missing or
non-string content — surfaces as an error entry in that document's own result
slot, every raised exception is absorbed by the `except` clauses, and each
slot is the image of its own call alone, so a failing call cannot disturb its
siblings.  (Content that is a string but parses to no JSON anywhere becomes
the parsed empty object — the extractor's deliberate recoverable-empty
fallback — rather than an error entry.) -/
theorem C8_failure_containment :
    (∀ (completionOrder : List ℕ) (resumeT : Transport) (offerTs : List Transport),
      (∀ j, j < offerTs.length + 1 → j ∈ completionOrder) →
      process_documents completionOrder resumeT offerTs =
        some ⟨call_llm_async resumeT, offerTs.map call_llm_async⟩) ∧
    (∀ t : Transport, transportFails t = true → (call_llm_async t).isError = true) ∧
    (∀ (t : Transport) (e : PyExn), call_llm_async_try t = .error e →
      (call_llm_async t).isError = true) := by
  have habsorb : ∀ (t : Transport) (e : PyExn), call_llm_async_try t = .error e →
      (call_llm_async t).isError = true := by
    intro t e h
    unfold call_llm_async
    rw [h]
    cases e <;> rfl
  refine ⟨process_documents_covered, ?_, habsorb⟩
  intro t h
  cases t with
  | raised e => cases e <;> rfl
  | resp status body =>
    simp only [transportFails] at h
    by_cases hs : status ≠ 200
    · have htry : call_llm_async_try (.resp status body) =
          .ok (.errorResult ("API请求失败: HTTP " ++ toString status)) := by
        simp only [call_llm_async_try, if_pos hs]
      unfold call_llm_async
      rw [htry]
      rfl
    · cases hb : jLoads body with
      | none =>
        exact habsorb _ (.otherExn "响应JSON解析失败")
          (by simp only [call_llm_async_try, if_neg hs, hb])
      | some result =>
        cases hex : extract_content_from_result result with
        | error e =>
          exact habsorb _ e
            (by simp only [call_llm_async_try, if_neg hs, hb, hex])
        | ok content =>
          by_cases hn : content.isNull = true
          · have htry : call_llm_async_try (.resp status body) =
                .ok (.errorResult "无法从响应中提取内容") := by
              simp only [call_llm_async_try, if_neg hs, hb, hex, if_pos hn]
            unfold call_llm_async
            rw [htry]
            rfl
          · cases content with
            | jstr s =>
              exfalso
              rw [if_neg hs, hb] at h
              simp [hex] at h
              exact hn h
            | jnull => exact absurd rfl hn
            | jbool b =>
              exact habsorb _ (.otherExn "the JSON object must be str") (by
                simp only [call_llm_async_try, if_neg hs, hb, hex, if_neg hn])
            | jnum s =>
              exact habsorb _ (.otherExn "the JSON object must be str") (by
                simp only [call_llm_async_try, if_neg hs, hb, hex, if_neg hn])
            | jarr xs =>
              exact habsorb _ (.otherExn "the JSON object must be str") (by
                simp only [call_llm_async_try, if_neg hs, hb, hex, if_neg hn])
            | jobj kvs =>
              exact habsorb _ (.otherExn "the JSON object must be str") (by
                simp only [call_llm_async_try, if_neg hs, hb, hex, if_neg hn])

/-- Witness for Claim C8: one failing call (a raised timeout) beside a
healthy sibling; the combined result is returned with the failure as an
error entry in its own slot. -/
theorem C8_failure_containment_witness :
    (∀ j, j < 2 → j ∈ [1, 0]) ∧
    process_documents [1, 0] (.raised .timeoutExn) [.resp 200 "\x7b\x7d"] =
      some ⟨call_llm_async (.raised .timeoutExn),
        [Transport.resp 200 "\x7b\x7d"].map call_llm_async⟩ ∧
    transportFails (.raised .timeoutExn) = true ∧
    (call_llm_async (.raised .timeoutExn)).isError = true :=
  ⟨by decide,
    C8_failure_containment.1 [1, 0] (.raised .timeoutExn) [.resp 200 "\x7b\x7d"]
      (by decide),
    rfl,
    C8_failure_containment.2.1 (.raised .timeoutExn) rfl⟩

/-- Claim C9: every call is a task built before the single gather point (the
task list contains the resume call and one task per offer, in submission
order); the returned `offer_analyses` follows submission order for *every*
completion order of the concurrent calls, and gather does not return while
any task is outstanding. -/
theorem C9_fanout_fanin_order :
    (∀ (resumeT : Transport) (offerTs : List Transport) (ord1 ord2 : List ℕ),
      (∀ j, j < offerTs.length + 1 → j ∈ ord1) →
      (∀ j, j < offerTs.length + 1 → j ∈ ord2) →
      process_documents ord1 resumeT offerTs = process_documents ord2 resumeT offerTs) ∧
    (∀ (completionOrder : List ℕ) (resumeT : Transport) (offerTs : List Transport),
      (∀ j, j < offerTs.length + 1 → j ∈ completionOrder) →
      (process_documents completionOrder resumeT offerTs).map
          CombinedResult.offer_analyses =
        some (offerTs.map call_llm_async)) ∧
    (∀ (completionOrder : List ℕ) (resumeT : Transport) (offerTs : List Transport)
        (j : ℕ), j < offerTs.length + 1 → j ∉ completionOrder →
      process_documents completionOrder resumeT offerTs = none) := by
  refine ⟨?_, ?_, ?_⟩
  · intro rT oTs ord1 ord2 h1 h2
    rw [process_documents_covered ord1 rT oTs h1, process_documents_covered ord2 rT oTs h2]
  · intro ord rT oTs hcov
    rw [process_documents_covered ord rT oTs hcov]
    rfl
  · intro ord rT oTs j hj hnot
    have hslot : (gatherFill ((rT :: oTs).map call_llm_async) ord)[j]? = some none := by
      unfold gatherFill
      rw [gatherFill_fold_getElem _ ord _ (by simp) j]
      rw [if_neg (fun hc => hnot hc.1), List.getElem?_replicate,
        if_pos (by simpa using hj)]
    have hnone : gatherExec ((rT :: oTs).map call_llm_async) ord = none :=
      collectSlots_none_of_slot _ j hslot
    unfold process_documents
    rw [hnone]

/-- Witness for Claim C9: offers `[A, B, C]` where `B` (task index 2)
completes last still come back in submission order. -/
theorem C9_fanout_fanin_order_witness :
    (∀ j, j < 4 → j ∈ [0, 1, 3, 2]) ∧
    (process_documents [0, 1, 3, 2] (.resp 200 "\x7b\x7d")
        [.resp 500 "a", .resp 500 "b", .resp 500 "c"]).map
        CombinedResult.offer_analyses =
      some ([.resp 500 "a", .resp 500 "b", .resp 500 "c"].map call_llm_async) :=
  ⟨by decide,
    C9_fanout_fanin_order.2.1 [0, 1, 3, 2] (.resp 200 "\x7b\x7d")
      [.resp 500 "a", .resp 500 "b", .resp 500 "c"] (by decide)⟩

end Cvtiqu

